import Mathlib

set_option maxRecDepth 100000

/-!
Shallow embedding of the High-Frequency-Snake-rs simulation core.

The Rust sources embedded here are:
  * src/game/types.rs   (Point, Direction, Input)
  * src/game/grid.rs    (Cell, Grid, get_cell, set_cell)
  * src/game/snake.rs   (Snake, GridAwareSnake methods)
  * src/game/apple.rs   (Apple, APPLE_CAPACITY)
  * src/game/engine.rs  (GameState, MovementRecord, tick, add_apple, spawn_apple)
  * src/ipc/spsc.rs     (Spsc, produce, consume)

Machine integers (u16 coordinates, u32 ids, u64 counters) are modelled as Nat;
no arithmetic in the embedded code paths can overflow within the bounds that
the well-formedness predicate (below) imposes, which mirror the bounds the
Rust type system imposes (coordinates live in [0, 4000) on a valid grid).
The grid is modelled as a total function from points to cells; the Rust
implementation panics on out-of-bounds indices, which the well-formedness
predicate rules out.  The thread-local random number generator used by apple
respawning is modelled as an explicit stream of points consumed left to right.
-/

-- Constants from src/game/grid.rs, snake.rs, apple.rs, engine.rs
def GRID_WIDTH : Nat := 4000
def GRID_HEIGHT : Nat := 4000
def SNAKE_CAPACITY : Nat := 1024
def APPLE_CAPACITY : Nat := 128
def BUCKET_BITS : Nat := 8
def NUM_BUCKETS : Nat := 1 <<< BUCKET_BITS
def RESPAWN_ATTEMPTS : Nat := 100

-- Point from src/game/types.rs (x, y are u16 in the source)
structure Point where
  x : Nat
  y : Nat
deriving DecidableEq, Repr

instance : Inhabited Point := ⟨⟨0, 0⟩⟩

-- Direction from src/game/types.rs
inductive Direction where
  | Up
  | Down
  | Left
  | Right
deriving DecidableEq, Repr

-- Input from src/game/types.rs
structure Input where
  snake_id : Nat
  direction : Direction
deriving DecidableEq, Repr

-- Cell from src/game/grid.rs
inductive Cell where
  | Empty
  | Snake
  | Apple
deriving DecidableEq, Repr

-- Grid from src/game/grid.rs: a total occupancy map (the source stores a
-- dense GRID_HEIGHT x GRID_WIDTH buffer and panics out of bounds).
def Grid : Type := Point → Cell

def Grid.new : Grid := fun _ => Cell.Empty

def Grid.get_cell (g : Grid) (p : Point) : Cell := g p

def Grid.set_cell (g : Grid) (p : Point) (c : Cell) : Grid :=
  fun q => if q = p then c else g q

-- Snake from src/game/snake.rs.  The body deque is a list whose first
-- element is the head (index 0) and whose last element is the tail.
structure Snake where
  id : Nat
  body : List Point
  direction : Direction
  is_alive : Bool
deriving DecidableEq, Repr

instance : Inhabited Snake := ⟨⟨0, [], Direction.Up, false⟩⟩

def Snake.new (id : Nat) (start_pos : Point) (initial_direction : Direction) : Snake :=
  ⟨id, [start_pos], initial_direction, true⟩

-- Snake::calculate_new_head.  The source unwraps body.get(0) and would
-- panic on an empty body; the embedding reads the head with a default,
-- and every theorem that uses it assumes a non-empty body.
def Snake.calculate_new_head (s : Snake) : Point :=
  let current_head := s.body.headI
  match s.direction with
  | Direction.Up =>
      ⟨current_head.x, if current_head.y = 0 then GRID_HEIGHT - 1 else current_head.y - 1⟩
  | Direction.Down =>
      ⟨current_head.x, if current_head.y = GRID_HEIGHT - 1 then 0 else current_head.y + 1⟩
  | Direction.Left =>
      ⟨if current_head.x = 0 then GRID_WIDTH - 1 else current_head.x - 1, current_head.y⟩
  | Direction.Right =>
      ⟨if current_head.x = GRID_WIDTH - 1 then 0 else current_head.x + 1, current_head.y⟩

-- Snake::move_forward: push the new head to the front; pop the back
-- unless growing.
def Snake.move_forward (s : Snake) (will_grow : Bool) : Snake :=
  let new_head := s.calculate_new_head
  let pushed := new_head :: s.body
  { s with body := if will_grow then pushed else pushed.dropLast }

-- Snake::change_direction: silently reject a reversal.
def Snake.change_direction (s : Snake) (new_direction : Direction) : Snake :=
  let can_change : Bool :=
    !(decide ((s.direction = Direction.Up ∧ new_direction = Direction.Down)
      ∨ (s.direction = Direction.Down ∧ new_direction = Direction.Up)
      ∨ (s.direction = Direction.Left ∧ new_direction = Direction.Right)
      ∨ (s.direction = Direction.Right ∧ new_direction = Direction.Left)))
  if can_change then { s with direction := new_direction } else s

-- GridAwareSnake::tail_position (src/game/snake.rs): last body segment.
def Snake.tail_position (s : Snake) : Option Point :=
  if s.body.length > 0 then s.body.get? (s.body.length - 1) else none

-- GridAwareSnake::update_body: delegates to Snake::move_forward.
def Snake.update_body (s : Snake) (will_grow : Bool) : Snake :=
  s.move_forward will_grow

-- GridAwareSnake::mark_dead.
def Snake.mark_dead (s : Snake) : Snake :=
  { s with is_alive := false }

-- Apple from src/game/apple.rs
structure Apple where
  position : Point
deriving DecidableEq, Repr

-- MovementRecord from src/game/engine.rs
structure MovementRecord where
  snake_id : Nat
  new_head : Point
  cell_at_new_head : Cell
deriving DecidableEq, Repr

-- GameState from src/game/engine.rs.  The two pre-allocated bucket arrays
-- are scratch state cleared at the start of every tick; the embedding
-- threads them through the tick locally.
structure GameState where
  snakes : List Snake
  num_apples : Nat
  grid : Grid

-- Bucket index used in Phase 2 and Phase 5: new_head.y >> (16 - BUCKET_BITS).
def bucketIdx (p : Point) : Nat := p.y >>> (16 - BUCKET_BITS)

-- Phase 1 of GameState::tick: apply each input in slice order.  The source
-- indexes the snake array without a bounds check (the producer is trusted);
-- the embedding leaves the state unchanged out of range.
def applyInputs (snakes : List Snake) (inputs : List Input) : List Snake :=
  inputs.foldl
    (fun sn inp =>
      sn.set inp.snake_id ((sn.getD inp.snake_id default).change_direction inp.direction))
    snakes

-- Phase 2 of GameState::tick: collect a MovementRecord for each alive snake
-- into the spatial bucket chosen by its new head's y coordinate.
def collectBuckets (snakes : List Snake) : List (List MovementRecord) :=
  snakes.foldl
    (fun buckets s =>
      if s.is_alive then
        let new_head := s.calculate_new_head
        let idx := bucketIdx new_head
        buckets.set idx (buckets.getD idx [] ++ [⟨s.id, new_head, Cell.Empty⟩])
      else buckets)
    (List.replicate NUM_BUCKETS [])

-- Working state of the combined Phase 3-5 loop of GameState::tick.
structure PassState where
  snakes : List Snake
  grid : Grid
  consumed_apples : Nat
  previous_new_head : Option Point
  tail_buckets : List (List Point)

-- One iteration of the Phase 3-5 loop.  The source reads the target cell
-- once into record.cell_at_new_head and branches on it; here the pure read
-- st.grid.get_cell record.new_head is written out at each use (the field is
-- never read again after the loop, so it is not stored).  will_grow is the
-- source's `cell_at_new_head == Cell::Apple`, and the source's
-- `if !will_grow { push tail } else {}` is rendered with the branches
-- swapped.  All snake reads (tail_position, update_body) happen on the
-- pre-update snake array entry, as in the source.
def processRecord (st : PassState) (record : MovementRecord) : PassState :=
  if st.grid.get_cell record.new_head = Cell.Snake then
    { st with snakes :=
        st.snakes.set record.snake_id ((st.snakes.getD record.snake_id default).mark_dead) }
  else if st.previous_new_head = some record.new_head then
    { st with snakes :=
        st.snakes.set record.snake_id ((st.snakes.getD record.snake_id default).mark_dead) }
  else
    { snakes :=
        st.snakes.set record.snake_id
          ((st.snakes.getD record.snake_id default).update_body
            (decide (st.grid.get_cell record.new_head = Cell.Apple))),
      grid := st.grid.set_cell record.new_head Cell.Snake,
      consumed_apples := st.consumed_apples +
        (if st.grid.get_cell record.new_head = Cell.Apple then 1 else 0),
      previous_new_head := some record.new_head,
      tail_buckets :=
        if st.grid.get_cell record.new_head = Cell.Apple then st.tail_buckets
        else
          match (st.snakes.getD record.snake_id default).tail_position with
          | some tail_pos =>
              st.tail_buckets.set (bucketIdx tail_pos)
                (st.tail_buckets.getD (bucketIdx tail_pos) [] ++ [tail_pos])
          | none => st.tail_buckets }

-- The Phase 3-5 loop: iterate buckets in order, records in insertion order
-- (empty buckets are skipped; folding over them is the identity anyway).
def processAllRecords (init : PassState) (buckets : List (List MovementRecord)) : PassState :=
  buckets.foldl (fun st bucket => bucket.foldl processRecord st) init

-- Phase 6 of GameState::tick: clear recorded tails, bucket order.
def clearTails (g : Grid) (tail_buckets : List (List Point)) : Grid :=
  tail_buckets.foldl
    (fun g bucket => bucket.foldl (fun g tail_pos => g.set_cell tail_pos Cell.Empty) g)
    g

-- GameState::spawn_apple's attempt loop: up to RESPAWN_ATTEMPTS random
-- positions, committing the first empty one.  The random draws come from
-- the explicit stream; an exhausted stream behaves like a failed attempt.
def spawnAppleLoop : Nat → Grid → Nat → List Point → Grid × Nat × List Point
  | 0, g, n, rng => (g, n, rng)
  | _ + 1, g, n, [] => (g, n, [])
  | fuel + 1, g, n, position :: rng =>
      if g.get_cell position = Cell.Empty then
        (g.set_cell position Cell.Apple, n + 1, rng)
      else spawnAppleLoop fuel g n rng

-- GameState::spawn_apple: no-op at capacity, otherwise run the loop.
def spawn_apple (g : Grid) (num_apples : Nat) (rng : List Point) : Grid × Nat × List Point :=
  if num_apples ≥ APPLE_CAPACITY then (g, num_apples, rng)
  else spawnAppleLoop RESPAWN_ATTEMPTS g num_apples rng

-- Phase 7 of GameState::tick: one spawn_apple call per consumed apple.
def spawnApples : Nat → Grid → Nat → List Point → Grid × Nat × List Point
  | 0, g, n, rng => (g, n, rng)
  | k + 1, g, n, rng =>
      let r := spawn_apple g n rng
      spawnApples k r.1 r.2.1 r.2.2

-- GameState::tick (the cache-aware main loop), with the RNG stream made
-- explicit; returns the new state and the unconsumed remainder of the stream.
def GameState.tick (gs : GameState) (inputs : List Input) (rng : List Point) :
    GameState × List Point :=
  let snakes1 := applyInputs gs.snakes inputs
  let buckets := collectBuckets snakes1
  let st := processAllRecords
    ⟨snakes1, gs.grid, 0, none, List.replicate NUM_BUCKETS []⟩ buckets
  let grid6 := clearTails st.grid st.tail_buckets
  let r := spawnApples st.consumed_apples grid6 gs.num_apples rng
  (⟨st.snakes, r.2.1, r.1⟩, r.2.2)

-- GameState::add_apple: manual insertion, no-op at capacity.
def GameState.add_apple (gs : GameState) (apple : Apple) : GameState :=
  if gs.num_apples < APPLE_CAPACITY then
    { gs with grid := gs.grid.set_cell apple.position Cell.Apple,
              num_apples := gs.num_apples + 1 }
  else gs

-- N consecutive ticks, one input batch per tick, threading the RNG stream.
def runTicks (gs : GameState) (batches : List (List Input)) (rng : List Point) :
    GameState × List Point :=
  batches.foldl (fun acc batch => acc.1.tick batch acc.2) (gs, rng)

-- The movement records of one tick in processing order: bucket order,
-- insertion order within each bucket.
def tickRecords (gs : GameState) (inputs : List Input) : List MovementRecord :=
  (collectBuckets (applyInputs gs.snakes inputs)).flatten

-- Analysis of the Phase 3-5 loop: given the pre-tick grid and the list of
-- already-committed new heads, the sublist of records that commit their
-- movement (a record is rejected exactly when its target holds Snake in the
-- pre-tick grid or was committed earlier in the same tick).
def commitsAux (g0 : Grid) : List MovementRecord → List Point → List MovementRecord
  | [], _ => []
  | r :: rs, ch =>
      if g0.get_cell r.new_head ≠ Cell.Snake ∧ r.new_head ∉ ch then
        r :: commitsAux g0 rs (r.new_head :: ch)
      else commitsAux g0 rs ch

-- The records of one tick that commit.
def tickCommits (gs : GameState) (inputs : List Input) : List MovementRecord :=
  commitsAux gs.grid (tickRecords gs inputs) []

-- A grid with the given cells forced to Snake (the effect of the committed
-- head writes of Phase 5).
def overlay (g0 : Grid) (ch : List Point) : Grid :=
  fun q => if q ∈ ch then Cell.Snake else g0 q

-- The records Phase 2 emits, in snake-array order (the bucketed list is a
-- permutation of this).
def aliveRecords (snakes : List Snake) : List MovementRecord :=
  (snakes.filter (fun s => s.is_alive)).map
    (fun s => ⟨s.id, s.calculate_new_head, Cell.Empty⟩)

-- Number of apples consumed in one tick.
def tickConsumed (gs : GameState) (inputs : List Input) : Nat :=
  (tickCommits gs inputs).countP
    (fun r => decide (gs.grid.get_cell r.new_head = Cell.Apple))

-- The tail cells recorded for deferred clearing in one tick.
def tickTails (gs : GameState) (inputs : List Input) : List Point :=
  (tickCommits gs inputs).filterMap (fun r =>
    if gs.grid.get_cell r.new_head = Cell.Apple then none
    else ((applyInputs gs.snakes inputs).getD r.snake_id default).tail_position)

-- The grid after Phase 6 (heads written, tails cleared), before respawn.
def tickGrid6 (gs : GameState) (inputs : List Input) : Grid :=
  fun q => if q ∈ tickTails gs inputs then Cell.Empty
    else overlay gs.grid ((tickCommits gs inputs).map (fun r => r.new_head)) q

-- Spsc from src/ipc/spsc.rs: two indices and an N-slot buffer.  The
-- MaybeUninit slots are modelled as an arbitrary total function; Spsc::new
-- takes the arbitrary initial (uninitialised) slot contents as a parameter.
-- The atomic loads/stores of the source are ordinary reads/writes here: the
-- claim is about the sequential (interleaved) behaviour of the two endpoints.
structure Spsc (T : Type) (N : Nat) where
  head : Nat
  tail : Nat
  buffer : Nat → T

def Spsc.new (T : Type) (N : Nat) (uninit : Nat → T) : Spsc T N := ⟨0, 0, uninit⟩

-- Spsc::next_index
def Spsc.next_index (N : Nat) (index : Nat) : Nat :=
  if index = N - 1 then 0 else index + 1

-- Spsc::produce: fail when next(tail) == head, else write slot tail and
-- advance tail.
def Spsc.produce {T : Type} {N : Nat} (q : Spsc T N) (val : T) : Bool × Spsc T N :=
  if Spsc.next_index N q.tail = q.head then (false, q)
  else (true, ⟨q.head, Spsc.next_index N q.tail, Function.update q.buffer q.tail val⟩)

-- Spsc::consume: fail when head == tail, else read slot head and advance head.
def Spsc.consume {T : Type} {N : Nat} (q : Spsc T N) : Option T × Spsc T N :=
  if q.head = q.tail then (none, q)
  else (some (q.buffer q.head), ⟨Spsc.next_index N q.head, q.tail, q.buffer⟩)

-- Abstraction: number of slots in use, i.e. the length of [head, tail) mod N.
def Spsc.size {T : Type} {N : Nat} (q : Spsc T N) : Nat :=
  if q.head ≤ q.tail then q.tail - q.head else q.tail + N - q.head

-- Abstraction: the queued values, oldest first.
def Spsc.contents {T : Type} {N : Nat} (q : Spsc T N) : List T :=
  (List.range q.size).map (fun k => q.buffer ((q.head + k) % N))

-- Both endpoint indices stay below N.
def Spsc.WF {T : Type} {N : Nat} (q : Spsc T N) : Prop := q.head < N ∧ q.tail < N

-- A sequential trace of endpoint operations.
inductive SpscOp (T : Type) where
  | produce (val : T)
  | consume

-- Run a trace; collect the final queue, the accepted produced values in
-- production order, and the consumed values in consumption order.
def runOps {T : Type} {N : Nat} (q : Spsc T N) : List (SpscOp T) → Spsc T N × List T × List T
  | [] => (q, [], [])
  | SpscOp.produce v :: ops =>
      let r := q.produce v
      let rest := runOps r.2 ops
      (rest.1, (if r.1 then [v] else []) ++ rest.2.1, rest.2.2)
  | SpscOp.consume :: ops =>
      let r := q.consume
      let rest := runOps r.2 ops
      (rest.1, rest.2.1, (match r.1 with | some v => [v] | none => []) ++ rest.2.2)

-- The set of grid positions (the Rust grid stores exactly these cells).
def boundedPoints : Finset Point :=
  (Finset.range GRID_WIDTH ×ˢ Finset.range GRID_HEIGHT).image (fun q => ⟨q.1, q.2⟩)

-- Number of grid cells holding Cell.Apple (what the repository's
-- test_game_state_consistency counts and compares against num_apples).
def appleCount (g : Grid) : Nat :=
  ∑ p in boundedPoints, (if g p = Cell.Apple then 1 else 0)

-- Both are kept irreducible so that no tactic ever tries to evaluate the
-- 4000 x 4000 grid enumeration by reduction.
attribute [irreducible] boundedPoints appleCount

-- Well-formedness of a single snake with respect to a grid.
def SnakeWF (g : Grid) (s : Snake) : Prop :=
  s.is_alive = true →
    s.body ≠ [] ∧ s.body.Nodup ∧
    ∀ p ∈ s.body, p.x < GRID_WIDTH ∧ p.y < GRID_HEIGHT ∧ g p = Cell.Snake

-- Disjointness of the bodies of two alive snakes.
def SnakesDisjoint (s t : Snake) : Prop :=
  s.is_alive = true → t.is_alive = true → ∀ p ∈ s.body, p ∉ t.body

-- Well-formed GameState: ids are array indices, every alive snake has a
-- non-empty, duplicate-free, in-bounds body fully present on the grid,
-- alive bodies are pairwise disjoint, and the tracked apple count is at
-- most APPLE_CAPACITY.
def WellFormed (gs : GameState) : Prop :=
  (∀ i, i < gs.snakes.length → (gs.snakes.getD i default).id = i) ∧
  (∀ s ∈ gs.snakes, SnakeWF gs.grid s) ∧
  gs.snakes.Pairwise SnakesDisjoint ∧
  gs.num_apples ≤ APPLE_CAPACITY

-- A one-segment alive snake, used by the concrete scenarios below.
def mkSnake (id : Nat) (p : Point) (d : Direction) : Snake := ⟨id, [p], d, true⟩

-- Scenario: single snake at (500,500) heading Right, empty grid elsewhere.
def stMoveEast : GameState :=
  ⟨[mkSnake 0 ⟨500, 500⟩ Direction.Right], 0,
    Grid.new.set_cell ⟨500, 500⟩ Cell.Snake⟩

-- Scenario: head-on pair, snake 0 at (500,500) Right, snake 1 at (502,500) Left.
def stHeadOn : GameState :=
  ⟨[mkSnake 0 ⟨500, 500⟩ Direction.Right, mkSnake 1 ⟨502, 500⟩ Direction.Left], 0,
    (Grid.new.set_cell ⟨500, 500⟩ Cell.Snake).set_cell ⟨502, 500⟩ Cell.Snake⟩

-- Scenario: the head-on pair of stHeadOn plus a third snake whose body
-- occupies the shared target cell (501,500).
def stHeadOnBlocked : GameState :=
  ⟨[mkSnake 0 ⟨500, 500⟩ Direction.Right, mkSnake 1 ⟨502, 500⟩ Direction.Left,
    mkSnake 2 ⟨501, 500⟩ Direction.Up], 0,
    ((Grid.new.set_cell ⟨500, 500⟩ Cell.Snake).set_cell ⟨502, 500⟩ Cell.Snake).set_cell
      ⟨501, 500⟩ Cell.Snake⟩

-- Scenario: snake at (0,0) heading Right about to eat the only apple at (1,0).
def stEat : GameState :=
  ⟨[mkSnake 0 ⟨0, 0⟩ Direction.Right], 1,
    (Grid.new.set_cell ⟨0, 0⟩ Cell.Snake).set_cell ⟨1, 0⟩ Cell.Apple⟩

-- The reverse pairs named by the spec's reverse-guard (Up↔Down, Left↔Right).
def specOpposite (a b : Direction) : Prop :=
  (a = Direction.Up ∧ b = Direction.Down) ∨ (a = Direction.Down ∧ b = Direction.Up)
    ∨ (a = Direction.Left ∧ b = Direction.Right)
    ∨ (a = Direction.Right ∧ b = Direction.Left)

instance (a b : Direction) : Decidable (specOpposite a b) := by
  unfold specOpposite; infer_instance

-- An empty state already holding APPLE_CAPACITY tracked apples.
def stFull : GameState := ⟨[], APPLE_CAPACITY, Grid.new⟩

instance (g : Grid) (s : Snake) : Decidable (SnakeWF g s) := by
  unfold SnakeWF; infer_instance

instance (s t : Snake) : Decidable (SnakesDisjoint s t) := by
  unfold SnakesDisjoint; infer_instance

instance (gs : GameState) : Decidable (WellFormed gs) := by
  unfold WellFormed; infer_instance

/-! ## Helper lemmas -/

-- Frame facts about a dead snake j: it is stored at index j, dead, its whole
-- body sits on Snake cells, and its body is disjoint from every alive body.
def DeadFrame (gs : GameState) (j : Nat) : Prop :=
  j < gs.snakes.length ∧
  (gs.snakes.getD j default).is_alive = false ∧
  (∀ p ∈ (gs.snakes.getD j default).body, gs.grid.get_cell p = Cell.Snake) ∧
  (∀ i, i < gs.snakes.length → i ≠ j →
    (gs.snakes.getD i default).is_alive = true →
    ∀ p ∈ (gs.snakes.getD j default).body, p ∉ (gs.snakes.getD i default).body)

theorem mem_boundedPoints (p : Point) (hx : p.x < GRID_WIDTH) (hy : p.y < GRID_HEIGHT) :
    p ∈ boundedPoints := by
  unfold boundedPoints
  rw [Finset.mem_image]
  refine ⟨(p.x, p.y), ?_, rfl⟩
  rw [Finset.mem_product]
  exact ⟨Finset.mem_range.mpr hx, Finset.mem_range.mpr hy⟩

theorem appleCount_set_cell (g : Grid) (p : Point) (c : Cell)
    (hx : p.x < GRID_WIDTH) (hy : p.y < GRID_HEIGHT) :
    appleCount (g.set_cell p c) + (if g p = Cell.Apple then 1 else 0) =
      appleCount g + (if c = Cell.Apple then 1 else 0) := by
  have hp : p ∈ boundedPoints := mem_boundedPoints p hx hy
  have h1 : (fun q => if (g.set_cell p c) q = Cell.Apple then (1 : Nat) else 0) =
      Function.update (fun q => if g q = Cell.Apple then (1 : Nat) else 0) p
        (if c = Cell.Apple then 1 else 0) := by
    funext q
    by_cases h : q = p
    · subst h; simp [Grid.set_cell, Function.update_same]
    · simp [Grid.set_cell, h, Function.update_noteq h]
  unfold appleCount
  rw [h1, Finset.sum_update_of_mem hp, Finset.sdiff_singleton_eq_erase,
    ← Finset.add_sum_erase _ _ hp]
  omega

theorem appleCount_new : appleCount Grid.new = 0 := by
  unfold appleCount Grid.new
  simp

theorem appleCount_congr (g1 g2 : Grid) (h : ∀ q, g1 q = Cell.Apple ↔ g2 q = Cell.Apple) :
    appleCount g1 = appleCount g2 := by
  unfold appleCount
  refine Finset.sum_congr rfl (fun q _ => ?_)
  by_cases hq : g1 q = Cell.Apple
  · rw [if_pos hq, if_pos ((h q).mp hq)]
  · rw [if_neg hq, if_neg (fun hc => hq ((h q).mpr hc))]

theorem appleCount_set_of_ne (g : Grid) (p : Point) (c : Cell)
    (hx : p.x < GRID_WIDTH) (hy : p.y < GRID_HEIGHT)
    (hprev : g p ≠ Cell.Apple) (hc : c ≠ Cell.Apple) :
    appleCount (g.set_cell p c) = appleCount g := by
  have h := appleCount_set_cell g p c hx hy
  rw [if_neg hprev, if_neg hc] at h
  omega

theorem appleCount_set_apple (g : Grid) (p : Point)
    (hx : p.x < GRID_WIDTH) (hy : p.y < GRID_HEIGHT) (hprev : g p ≠ Cell.Apple) :
    appleCount (g.set_cell p Cell.Apple) = appleCount g + 1 := by
  have h := appleCount_set_cell g p Cell.Apple hx hy
  rw [if_neg hprev, if_pos rfl] at h
  omega

theorem appleCount_unset_apple (g : Grid) (p : Point) (c : Cell)
    (hx : p.x < GRID_WIDTH) (hy : p.y < GRID_HEIGHT)
    (hprev : g p = Cell.Apple) (hc : c ≠ Cell.Apple) :
    appleCount (g.set_cell p c) + 1 = appleCount g := by
  have h := appleCount_set_cell g p c hx hy
  rw [if_pos hprev, if_neg hc] at h
  omega

/-! ## Claim C7 -/

/-- C7: for every snake with a non-empty body whose head lies within the
grid bounds, calculate_new_head returns the head translated one cell in the
snake's direction, with toroidal wrap-around: the moved coordinate is taken
modulo the grid dimension and the other coordinate is unchanged. -/
theorem c7_calculate_new_head_toroidal (s : Snake) (hne : s.body ≠ [])
    (hx : s.body.headI.x < GRID_WIDTH) (hy : s.body.headI.y < GRID_HEIGHT) :
    s.calculate_new_head = (match s.direction with
      | Direction.Up => ⟨s.body.headI.x, (s.body.headI.y + GRID_HEIGHT - 1) % GRID_HEIGHT⟩
      | Direction.Down => ⟨s.body.headI.x, (s.body.headI.y + 1) % GRID_HEIGHT⟩
      | Direction.Left => ⟨(s.body.headI.x + GRID_WIDTH - 1) % GRID_WIDTH, s.body.headI.y⟩
      | Direction.Right => ⟨(s.body.headI.x + 1) % GRID_WIDTH, s.body.headI.y⟩) := by
  rcases s with ⟨id, body, dir, alive⟩
  cases dir <;>
    (simp only [Snake.calculate_new_head, GRID_WIDTH, GRID_HEIGHT] at hx hy ⊢;
      split_ifs with h <;> (rw [Point.mk.injEq]; omega))

/-- Witness for C7: the literal spec scenario, head (3999,500) heading Right
wraps to (0,500). -/
theorem c7_witness :
    (Snake.new 0 ⟨3999, 500⟩ Direction.Right).body ≠ [] ∧
    (Snake.new 0 ⟨3999, 500⟩ Direction.Right).calculate_new_head = ⟨0, 500⟩ := by
  refine ⟨by decide, ?_⟩
  rw [c7_calculate_new_head_toroidal (Snake.new 0 ⟨3999, 500⟩ Direction.Right)
    (by decide) (by decide) (by decide)]
  decide

/-! ## Claim C8 -/

/-- C8: change_direction sets the direction to the requested one exactly when
it is not the opposite of the current direction, and is the identity (silent
rejection) otherwise; and in the literal scenario, a snake heading Right that
receives Input (0, Left) keeps direction Right and moves one cell right. -/
theorem c8_reverse_guard :
    (∀ (s : Snake) (d : Direction),
      ((s.change_direction d).direction = d ↔ ¬ specOpposite s.direction d) ∧
      (specOpposite s.direction d → s.change_direction d = s) ∧
      (¬ specOpposite s.direction d → s.change_direction d = { s with direction := d })) ∧
    (((stMoveEast.tick [⟨0, Direction.Left⟩] []).1.snakes.getD 0 default).direction
        = Direction.Right ∧
      ((stMoveEast.tick [⟨0, Direction.Left⟩] []).1.snakes.getD 0 default).body
        = [⟨501, 500⟩] ∧
      ((stMoveEast.tick [⟨0, Direction.Left⟩] []).1.snakes.getD 0 default).is_alive
        = true) := by
  constructor
  · intro s d
    rcases s with ⟨id, body, dir, alive⟩
    cases dir <;> cases d <;>
      simp [Snake.change_direction, specOpposite]
  · exact ⟨by decide, by decide, by decide⟩

/-! ## Claim C9 -/

/-- C9: add_apple is a no-op at capacity; below capacity it increments
num_apples by one and overwrites the target grid cell with Apple regardless
of the cell's prior content. -/
theorem c9_add_apple_postcondition :
    (∀ (gs : GameState) (a : Apple), gs.num_apples = APPLE_CAPACITY →
      gs.add_apple a = gs) ∧
    (∀ (gs : GameState) (a : Apple), gs.num_apples < APPLE_CAPACITY →
      (gs.add_apple a).num_apples = gs.num_apples + 1 ∧
      (gs.add_apple a).grid = gs.grid.set_cell a.position Cell.Apple ∧
      (gs.add_apple a).grid.get_cell a.position = Cell.Apple ∧
      (gs.add_apple a).snakes = gs.snakes) := by
  constructor
  · intro gs a h
    unfold GameState.add_apple
    rw [if_neg (by omega)]
  · intro gs a h
    unfold GameState.add_apple
    rw [if_pos h]
    refine ⟨rfl, rfl, ?_, rfl⟩
    simp [Grid.get_cell, Grid.set_cell]

/-- Witness for C9: a state at apple capacity is unchanged, and below capacity
add_apple overwrites even a Snake cell occupied by an alive snake's body. -/
theorem c9_witness :
    stFull.num_apples = APPLE_CAPACITY ∧
    stFull.add_apple ⟨⟨7, 7⟩⟩ = stFull ∧
    stMoveEast.num_apples < APPLE_CAPACITY ∧
    stMoveEast.grid.get_cell ⟨500, 500⟩ = Cell.Snake ∧
    (stMoveEast.add_apple ⟨⟨500, 500⟩⟩).num_apples = stMoveEast.num_apples + 1 ∧
    (stMoveEast.add_apple ⟨⟨500, 500⟩⟩).grid.get_cell ⟨500, 500⟩ = Cell.Apple := by
  refine ⟨rfl, c9_add_apple_postcondition.1 stFull ⟨⟨7, 7⟩⟩ rfl, by decide, by decide, ?_, ?_⟩
  · exact (c9_add_apple_postcondition.2 stMoveEast ⟨⟨500, 500⟩⟩ (by decide)).1
  · exact (c9_add_apple_postcondition.2 stMoveEast ⟨⟨500, 500⟩⟩ (by decide)).2.2.1

/-! ## Claim C2 -/

/-- C2 (amended): the tick engine is a pure function of the starting state,
the input batches and the stream of RNG draws used for apple respawning: two
runs of N ticks that agree on all three produce identical final states,
including which of two head-to-head snakes dies. -/
theorem c2_determinism_modulo_rng (gs1 gs2 : GameState)
    (batches1 batches2 : List (List Input)) (rng1 rng2 : List Point)
    (hgs : gs1 = gs2) (hb : batches1 = batches2) (hr : rng1 = rng2) :
    runTicks gs1 batches1 rng1 = runTicks gs2 batches2 rng2 := by
  rw [hgs, hb, hr]

/-- Witness for C2 at a concrete state, batch list and RNG stream. -/
theorem c2_witness :
    runTicks stEat [[]] [⟨5, 5⟩] = runTicks stEat [[]] [⟨5, 5⟩] :=
  c2_determinism_modulo_rng stEat stEat [[]] [[]] [⟨5, 5⟩] [⟨5, 5⟩] rfl rfl rfl

/-- Counterexample for C2 as stated: from the same initial state and the same
(empty) input batch, two runs whose environment-provided RNG draws differ
produce different final states, because the consumed apple respawns at the
randomly drawn position. -/
theorem c2_counterexample :
    ¬ ((runTicks stEat [[]] [⟨5, 5⟩]).1 = (runTicks stEat [[]] [⟨6, 5⟩]).1) := by
  intro h
  have h2 := congrArg (fun gs => gs.grid.get_cell ⟨5, 5⟩) h
  revert h2
  decide

/-! ## Claim C1 -/

/-- C1 fails on the code: from the well-formed state stEat, whose grid apple
count (1) equals num_apples (1), the snake eats the apple at (1,0) and the
respawn places a new apple at (5,5), yet tick never decrements num_apples on
consumption, so afterwards num_apples = 2 while the grid holds exactly 1
apple cell. -/
theorem c1_apple_count_bug :
    WellFormed stEat ∧
    appleCount stEat.grid = stEat.num_apples ∧
    (stEat.tick [] [⟨5, 5⟩]).1.num_apples = 2 ∧
    appleCount (stEat.tick [] [⟨5, 5⟩]).1.grid = 1 := by
  have hg0 : appleCount (Grid.new.set_cell ⟨0, 0⟩ Cell.Snake) = 0 := by
    rw [appleCount_set_of_ne _ _ _ (by decide) (by decide) (by decide) (by decide),
      appleCount_new]
  have hg1 : appleCount stEat.grid = 1 := by
    show appleCount ((Grid.new.set_cell ⟨0, 0⟩ Cell.Snake).set_cell ⟨1, 0⟩ Cell.Apple) = 1
    rw [appleCount_set_apple _ _ (by decide) (by decide) (by decide), hg0]
  have hpost : (stEat.tick [] [⟨5, 5⟩]).1.grid =
      ((stEat.grid.set_cell ⟨1, 0⟩ Cell.Snake).set_cell ⟨5, 5⟩ Cell.Apple) := by rfl
  refine ⟨by decide, hg1, by decide, ?_⟩
  rw [hpost]
  have h2 : appleCount (stEat.grid.set_cell ⟨1, 0⟩ Cell.Snake) + 1 = appleCount stEat.grid :=
    appleCount_unset_apple _ _ _ (by decide) (by decide) (by decide) (by decide)
  have h3 := appleCount_set_apple (stEat.grid.set_cell ⟨1, 0⟩ Cell.Snake) ⟨5, 5⟩
    (by decide) (by decide) (by decide)
  omega

/-! ## SPSC (claim C6) -/

theorem add_mod_two_cases (a b N : Nat) (hN : 0 < N) (h2 : a + b < 2 * N) :
    (a + b) % N = if a + b < N then a + b else a + b - N := by
  split_ifs with h
  · exact Nat.mod_eq_of_lt h
  · rw [Nat.mod_eq_sub_mod (by omega)]
    exact Nat.mod_eq_of_lt (by omega)

theorem next_index_lt {N : Nat} (hN : 0 < N) (i : Nat) (hi : i < N) :
    Spsc.next_index N i < N := by
  unfold Spsc.next_index
  split_ifs <;> omega

theorem size_le {T : Type} {N : Nat} (q : Spsc T N) (hwf : q.WF) : q.size ≤ N - 1 := by
  obtain ⟨h1, h2⟩ := hwf
  unfold Spsc.size
  split_ifs <;> omega

theorem contents_length {T : Type} {N : Nat} (q : Spsc T N) :
    q.contents.length = q.size := by
  unfold Spsc.contents
  simp

theorem contents_new {T : Type} {N : Nat} (uninit : Nat → T) :
    (Spsc.new T N uninit).contents = [] := by
  unfold Spsc.contents Spsc.size Spsc.new
  simp

theorem wf_new {T : Type} {N : Nat} (hN : 0 < N) (uninit : Nat → T) :
    (Spsc.new T N uninit).WF := ⟨hN, hN⟩

theorem produce_false_iff {T : Type} {N : Nat} (q : Spsc T N) (v : T) :
    (q.produce v).1 = false ↔ Spsc.next_index N q.tail = q.head := by
  unfold Spsc.produce
  split_ifs with h <;> simp [h]

theorem produce_false_frame {T : Type} {N : Nat} (q : Spsc T N) (v : T)
    (h : (q.produce v).1 = false) : (q.produce v).2 = q := by
  unfold Spsc.produce at h ⊢
  split_ifs at h ⊢
  rfl

theorem full_iff_size {T : Type} {N : Nat} (q : Spsc T N) (hN : 0 < N) (hwf : q.WF) :
    Spsc.next_index N q.tail = q.head ↔ q.size = N - 1 := by
  obtain ⟨h1, h2⟩ := hwf
  unfold Spsc.next_index Spsc.size
  split_ifs <;> omega

theorem consume_none_iff {T : Type} {N : Nat} (q : Spsc T N) :
    (q.consume).1 = none ↔ q.head = q.tail := by
  unfold Spsc.consume
  split_ifs with h <;> simp [h]

theorem empty_iff_size {T : Type} {N : Nat} (q : Spsc T N) (hwf : q.WF) :
    q.head = q.tail ↔ q.size = 0 := by
  obtain ⟨h1, h2⟩ := hwf
  unfold Spsc.size
  split_ifs <;> omega

theorem contents_eq_nil_iff {T : Type} {N : Nat} (q : Spsc T N) (hwf : q.WF) :
    q.contents = [] ↔ q.head = q.tail := by
  rw [empty_iff_size q hwf]
  unfold Spsc.contents
  simp [List.range_eq_nil]

theorem produce_success {T : Type} {N : Nat} (q : Spsc T N) (v : T) (hN : 0 < N)
    (hwf : q.WF) (h : (q.produce v).1 = true) :
    ((q.produce v).2).contents = q.contents ++ [v] ∧ ((q.produce v).2).WF := by
  obtain ⟨h1, h2⟩ := hwf
  rcases q with ⟨qh, qt, qb⟩
  dsimp only at h1 h2
  by_cases hfull : Spsc.next_index N qt = qh
  · exfalso
    unfold Spsc.produce at h
    dsimp only at h
    rw [if_pos hfull] at h
    simp at h
  · unfold Spsc.produce
    dsimp only
    rw [if_neg hfull]
    dsimp only
    refine ⟨?_, h1, next_index_lt hN _ h2⟩
    have hsz : Spsc.size (⟨qh, Spsc.next_index N qt, Function.update qb qt v⟩ : Spsc T N) =
        Spsc.size (⟨qh, qt, qb⟩ : Spsc T N) + 1 := by
      unfold Spsc.size Spsc.next_index at hfull ⊢
      dsimp only at hfull ⊢
      split_ifs at hfull ⊢ <;> omega
    have hszle : Spsc.size (⟨qh, qt, qb⟩ : Spsc T N) ≤ N - 1 :=
      size_le (⟨qh, qt, qb⟩ : Spsc T N) ⟨h1, h2⟩
    have hbound : qh + Spsc.size (⟨qh, qt, qb⟩ : Spsc T N) < 2 * N := by omega
    have hidx : (qh + Spsc.size (⟨qh, qt, qb⟩ : Spsc T N)) % N = qt := by
      rw [add_mod_two_cases _ _ _ hN hbound]
      unfold Spsc.size
      dsimp only
      split_ifs <;> omega
    unfold Spsc.contents
    dsimp only
    rw [hsz, List.range_succ, List.map_append]
    congr 1
    · refine List.map_congr_left (fun k hk => ?_)
      rw [List.mem_range] at hk
      have hk2 : (qh + k) % N ≠ qt := by
        rw [add_mod_two_cases _ _ _ hN (by omega)]
        unfold Spsc.size at hk
        dsimp only at hk
        split_ifs at hk ⊢ <;> omega
      rw [Function.update_noteq hk2]
    · rw [List.map_singleton, hidx, Function.update_same]

theorem consume_success {T : Type} {N : Nat} (q : Spsc T N) (hN : 0 < N)
    (hwf : q.WF) (h : q.head ≠ q.tail) :
    (q.consume).1 = some (q.buffer q.head) ∧
    q.contents = q.buffer q.head :: ((q.consume).2).contents ∧ ((q.consume).2).WF := by
  obtain ⟨h1, h2⟩ := hwf
  rcases q with ⟨qh, qt, qb⟩
  dsimp only at h1 h2 h
  unfold Spsc.consume
  dsimp only
  rw [if_neg h]
  refine ⟨rfl, ?_, next_index_lt hN _ h1, h2⟩
  have hsz : Spsc.size (⟨Spsc.next_index N qh, qt, qb⟩ : Spsc T N) =
      Spsc.size (⟨qh, qt, qb⟩ : Spsc T N) - 1 := by
    unfold Spsc.size Spsc.next_index
    dsimp only
    split_ifs <;> omega
  have hpos : 0 < Spsc.size (⟨qh, qt, qb⟩ : Spsc T N) := by
    unfold Spsc.size
    dsimp only
    split_ifs <;> omega
  unfold Spsc.contents
  dsimp only
  rw [hsz]
  have hrw : Spsc.size (⟨qh, qt, qb⟩ : Spsc T N) =
      (Spsc.size (⟨qh, qt, qb⟩ : Spsc T N) - 1) + 1 := by omega
  rw [hrw, List.range_succ_eq_map, List.map_cons, List.map_map]
  congr 1
  · simp [Nat.mod_eq_of_lt h1]
  · refine List.map_congr_left (fun k hk => ?_)
    rw [List.mem_range] at hk
    simp only [Function.comp_apply]
    congr 1
    have hsz2 : Spsc.size (⟨qh, qt, qb⟩ : Spsc T N) - 1 ≤ N - 1 := by
      have := size_le (⟨qh, qt, qb⟩ : Spsc T N) ⟨h1, h2⟩
      omega
    unfold Spsc.next_index
    split_ifs with hlast
    · rw [hlast]
      have e1 : N - 1 + Nat.succ k = N + k := by omega
      rw [e1, Nat.add_mod_left, Nat.zero_add]
    · have e1 : qh + Nat.succ k = qh + 1 + k := by omega
      rw [e1]

theorem runOps_spec {T : Type} {N : Nat} (hN : 0 < N) :
    ∀ (ops : List (SpscOp T)) (q : Spsc T N), q.WF →
      (runOps q ops).1.WF ∧
      (runOps q ops).2.2 ++ (runOps q ops).1.contents =
        q.contents ++ (runOps q ops).2.1 := by
  intro ops
  induction ops with
  | nil => intro q hwf; simpa [runOps] using hwf
  | cons op ops ih =>
    intro q hwf
    cases op with
    | produce v =>
      by_cases hok : (q.produce v).1 = true
      · have hp := produce_success q v hN hwf hok
        have hrest := ih (q.produce v).2 hp.2
        simp only [runOps, hok, if_true]
        refine ⟨hrest.1, ?_⟩
        rw [hrest.2, hp.1]
        simp
      · rw [Bool.not_eq_true] at hok
        have hfr := produce_false_frame q v hok
        have hrest := ih (q.produce v).2 (by rw [hfr]; exact hwf)
        simp only [runOps, hok, if_false]
        refine ⟨hrest.1, ?_⟩
        rw [hrest.2, hfr]
        simp
    | consume =>
      by_cases hemp : q.head = q.tail
      · have hnone : (q.consume).1 = none := (consume_none_iff q).mpr hemp
        have hfr : (q.consume).2 = q := by
          unfold Spsc.consume
          rw [if_pos hemp]
        have hrest := ih (q.consume).2 (by rw [hfr]; exact hwf)
        simp only [runOps, hnone]
        refine ⟨hrest.1, ?_⟩
        rw [List.nil_append, hrest.2, hfr]
      · have hc := consume_success q hN hwf hemp
        have hrest := ih (q.consume).2 hc.2.2
        simp only [runOps, hc.1]
        refine ⟨hrest.1, ?_⟩
        rw [List.append_assoc, hrest.2, hc.2.1]
        simp

/-- C6: interleaved sequentially, the Spsc ring is a bounded FIFO queue of
effective capacity N-1: for any operation trace from a fresh ring, the
consumed values followed by the still-queued values equal the accepted
produced values (FIFO, no loss, no duplication, oldest first); at most N-1
values are ever held; produce returns false, changing nothing, exactly when
next(tail) = head, equivalently when N-1 values are held; consume returns
none exactly when head = tail, equivalently when the queue is empty, and
otherwise returns the oldest queued value. -/
theorem c6_spsc_bounded_fifo {T : Type} (N : Nat) (hN : 0 < N) (uninit : Nat → T)
    (ops : List (SpscOp T)) (res : Spsc T N × List T × List T)
    (hres : runOps (Spsc.new T N uninit) ops = res) :
    (res.2.2 ++ res.1.contents = res.2.1) ∧
    (res.1.contents.length ≤ N - 1) ∧
    (∀ v, ((res.1.produce v).1 = false ↔ Spsc.next_index N res.1.tail = res.1.head)) ∧
    (∀ v, ((res.1.produce v).1 = false ↔ res.1.contents.length = N - 1)) ∧
    (∀ v, (res.1.produce v).1 = false → (res.1.produce v).2 = res.1) ∧
    ((res.1.consume).1 = none ↔ res.1.head = res.1.tail) ∧
    ((res.1.consume).1 = none ↔ res.1.contents = []) ∧
    (∀ v, (res.1.consume).1 = some v → res.1.contents.head? = some v) := by
  subst hres
  have hrun := runOps_spec hN ops (Spsc.new T N uninit) (wf_new hN uninit)
  obtain ⟨hwf, htrace⟩ := hrun
  rw [contents_new, List.nil_append] at htrace
  refine ⟨htrace, ?_, ?_, ?_, ?_, ?_, ?_, ?_⟩
  · rw [contents_length]
    exact size_le _ hwf
  · intro v
    exact produce_false_iff _ v
  · intro v
    rw [produce_false_iff, full_iff_size _ hN hwf, contents_length]
  · intro v
    exact produce_false_frame _ v
  · exact consume_none_iff _
  · rw [consume_none_iff, contents_eq_nil_iff _ hwf]
  · intro v hv
    by_cases hemp : (runOps (Spsc.new T N uninit) ops).1.head =
        (runOps (Spsc.new T N uninit) ops).1.tail
    · rw [(consume_none_iff _).mpr hemp] at hv
      simp at hv
    · have hc := consume_success _ hN hwf hemp
      rw [hc.1] at hv
      rw [hc.2.1, List.head?_cons, Option.some.inj hv]

/-- Witness for C6: a concrete trace on a ring of capacity 4 (three usable
slots): the fourth produce is rejected, and consumption returns the accepted
values in production order. -/
theorem c6_witness :
    (runOps (Spsc.new Nat 4 (fun _ => 0))
      [SpscOp.produce 10, SpscOp.produce 20, SpscOp.produce 30, SpscOp.produce 40,
        SpscOp.consume, SpscOp.produce 50, SpscOp.consume, SpscOp.consume,
        SpscOp.consume]).2.1 = [10, 20, 30, 50] ∧
    (runOps (Spsc.new Nat 4 (fun _ => 0))
      [SpscOp.produce 10, SpscOp.produce 20, SpscOp.produce 30, SpscOp.produce 40,
        SpscOp.consume, SpscOp.produce 50, SpscOp.consume, SpscOp.consume,
        SpscOp.consume]).2.2 = [10, 20, 30, 50] ∧
    (runOps (Spsc.new Nat 4 (fun _ => 0))
      [SpscOp.produce 10, SpscOp.produce 20, SpscOp.produce 30, SpscOp.produce 40,
        SpscOp.consume, SpscOp.produce 50, SpscOp.consume, SpscOp.consume,
        SpscOp.consume]).2.2 ++
      (runOps (Spsc.new Nat 4 (fun _ => 0))
      [SpscOp.produce 10, SpscOp.produce 20, SpscOp.produce 30, SpscOp.produce 40,
        SpscOp.consume, SpscOp.produce 50, SpscOp.consume, SpscOp.consume,
        SpscOp.consume]).1.contents =
      (runOps (Spsc.new Nat 4 (fun _ => 0))
      [SpscOp.produce 10, SpscOp.produce 20, SpscOp.produce 30, SpscOp.produce 40,
        SpscOp.consume, SpscOp.produce 50, SpscOp.consume, SpscOp.consume,
        SpscOp.consume]).2.1 := by
  refine ⟨by decide, by decide, ?_⟩
  exact (c6_spsc_bounded_fifo 4 (by decide) (fun _ => 0) _ _ rfl).1

/-! List utilities -/

theorem getD_set {α : Type} [Inhabited α] :
    ∀ (l : List α) (i j : Nat) (a : α),
    (l.set i a).getD j default =
      if i = j ∧ i < l.length then a else l.getD j default
  | [], i, j, a => by simp
  | x :: l, 0, 0, a => by simp
  | x :: l, 0, j + 1, a => by simp
  | x :: l, i + 1, 0, a => by simp [List.set]
  | x :: l, i + 1, j + 1, a => by
      simp only [List.set, List.getD_cons_succ, List.length_cons]
      rw [getD_set l i j a]
      by_cases h1 : i = j ∧ i < l.length
      · rw [if_pos h1, if_pos (by omega)]
      · rw [if_neg h1, if_neg (by omega)]

theorem getD_set_self {α : Type} [Inhabited α] (l : List α) (i : Nat) (a : α)
    (h : i < l.length) : (l.set i a).getD i default = a := by
  rw [getD_set, if_pos ⟨rfl, h⟩]

theorem getD_set_ne {α : Type} [Inhabited α] (l : List α) (i j : Nat) (a : α)
    (h : i ≠ j) : (l.set i a).getD j default = l.getD j default := by
  rw [getD_set, if_neg (by omega)]

theorem flatten_set_push {α : Type} :
    ∀ (bs : List (List α)) (i : Nat) (x : α), i < bs.length →
    List.Perm (bs.set i ((bs.getD i []) ++ [x])).flatten (bs.flatten ++ [x])
  | [], i, x, h => by simp at h
  | b :: bs, 0, x, _ => by
      simp only [List.set, List.getD_cons_zero, List.flatten_cons, List.append_assoc]
      exact (@List.perm_append_comm _ [x] bs.flatten).append_left b
  | b :: bs, i + 1, x, h => by
      simp only [List.set, List.getD_cons_succ, List.flatten_cons]
      have hperm := (flatten_set_push bs i x (by simpa using h)).append_left b
      rw [← List.append_assoc] at hperm
      exact hperm

/-! Snake field preservation -/

theorem change_direction_fields (s : Snake) (d : Direction) :
    (s.change_direction d).id = s.id ∧ (s.change_direction d).body = s.body ∧
    (s.change_direction d).is_alive = s.is_alive := by
  simp only [Snake.change_direction]
  split_ifs <;> exact ⟨rfl, rfl, rfl⟩

theorem update_body_fields (s : Snake) (wg : Bool) :
    (s.update_body wg).id = s.id ∧ (s.update_body wg).direction = s.direction ∧
    (s.update_body wg).is_alive = s.is_alive ∧
    (s.update_body wg).body =
      (if wg then s.calculate_new_head :: s.body
       else (s.calculate_new_head :: s.body).dropLast) := by
  unfold Snake.update_body Snake.move_forward
  cases wg <;> exact ⟨rfl, rfl, rfl, rfl⟩

theorem mark_dead_fields (s : Snake) :
    (s.mark_dead).id = s.id ∧ (s.mark_dead).direction = s.direction ∧
    (s.mark_dead).body = s.body ∧ (s.mark_dead).is_alive = false :=
  ⟨rfl, rfl, rfl, rfl⟩

/-! applyInputs only changes directions -/

theorem applyInputs_fields (snakes : List Snake) (inputs : List Input) :
    (applyInputs snakes inputs).length = snakes.length ∧
    ∀ j, ((applyInputs snakes inputs).getD j default).id = (snakes.getD j default).id ∧
      ((applyInputs snakes inputs).getD j default).body = (snakes.getD j default).body ∧
      ((applyInputs snakes inputs).getD j default).is_alive
        = (snakes.getD j default).is_alive := by
  unfold applyInputs
  induction inputs generalizing snakes with
  | nil => exact ⟨rfl, fun j => ⟨rfl, rfl, rfl⟩⟩
  | cons inp inputs ih =>
    simp only [List.foldl_cons]
    have hstep := ih (snakes.set inp.snake_id
      ((snakes.getD inp.snake_id default).change_direction inp.direction))
    refine ⟨by rw [hstep.1, List.length_set], fun j => ?_⟩
    have h2 := hstep.2 j
    rw [getD_set snakes] at h2
    by_cases hj : inp.snake_id = j ∧ inp.snake_id < snakes.length
    · rcases hj with ⟨hj1, hj2⟩
      subst hj1
      rw [if_pos ⟨rfl, hj2⟩] at h2
      have hcd := change_direction_fields (snakes.getD inp.snake_id default) inp.direction
      exact ⟨h2.1.trans hcd.1, h2.2.1.trans hcd.2.1, h2.2.2.trans hcd.2.2⟩
    · rw [if_neg hj] at h2
      exact h2

/-! Phase 2 bucketing is a permutation of the alive records -/

theorem aliveRecords_cons (s : Snake) (l : List Snake) :
    aliveRecords (s :: l) =
      (if s.is_alive then [(⟨s.id, s.calculate_new_head, Cell.Empty⟩ : MovementRecord)]
        else []) ++ aliveRecords l := by
  unfold aliveRecords
  rw [List.filter_cons]
  by_cases h : s.is_alive
  · rw [if_pos h, if_pos h, List.map_cons, List.singleton_append]
  · rw [if_neg h, if_neg h, List.nil_append]

theorem collectBuckets_fold_perm :
    ∀ (snakes : List Snake) (bs : List (List MovementRecord)),
    bs.length = NUM_BUCKETS →
    (∀ s ∈ snakes, s.is_alive = true → bucketIdx s.calculate_new_head < NUM_BUCKETS) →
    (snakes.foldl
      (fun buckets s =>
        if s.is_alive then
          buckets.set (bucketIdx s.calculate_new_head)
            ((buckets.getD (bucketIdx s.calculate_new_head) []) ++
              [⟨s.id, s.calculate_new_head, Cell.Empty⟩])
        else buckets) bs).length = NUM_BUCKETS ∧
    List.Perm
      ((snakes.foldl
        (fun buckets s =>
          if s.is_alive then
            buckets.set (bucketIdx s.calculate_new_head)
              ((buckets.getD (bucketIdx s.calculate_new_head) []) ++
                [⟨s.id, s.calculate_new_head, Cell.Empty⟩])
          else buckets) bs).flatten)
      (bs.flatten ++ aliveRecords snakes)
  | [], bs, hb, _ => by
      simp only [List.foldl_nil]
      refine ⟨hb, ?_⟩
      unfold aliveRecords
      simp
  | s :: snakes, bs, hb, hbound => by
      simp only [List.foldl_cons]
      by_cases ha : s.is_alive
      · rw [if_pos ha]
        have hidx : bucketIdx s.calculate_new_head < bs.length := by
          rw [hb]
          exact hbound s (by simp) ha
        have hpush := flatten_set_push bs (bucketIdx s.calculate_new_head)
          (⟨s.id, s.calculate_new_head, Cell.Empty⟩ : MovementRecord) hidx
        have hrec := collectBuckets_fold_perm snakes
          (bs.set (bucketIdx s.calculate_new_head)
            ((bs.getD (bucketIdx s.calculate_new_head) []) ++
              [⟨s.id, s.calculate_new_head, Cell.Empty⟩]))
          (by rw [List.length_set]; exact hb)
          (fun t ht hat => hbound t (by simp [ht]) hat)
        refine ⟨hrec.1, ?_⟩
        refine hrec.2.trans ?_
        rw [aliveRecords_cons, if_pos ha]
        refine (hpush.append_right (aliveRecords snakes)).trans ?_
        rw [List.append_assoc]
      · rw [if_neg ha]
        have hrec := collectBuckets_fold_perm snakes bs hb
          (fun t ht hat => hbound t (by simp [ht]) hat)
        refine ⟨hrec.1, ?_⟩
        refine hrec.2.trans ?_
        rw [aliveRecords_cons, if_neg ha, List.nil_append]

theorem tickRecords_perm (gs : GameState) (inputs : List Input)
    (hbound : ∀ s ∈ applyInputs gs.snakes inputs, s.is_alive = true →
      bucketIdx s.calculate_new_head < NUM_BUCKETS) :
    List.Perm (tickRecords gs inputs) (aliveRecords (applyInputs gs.snakes inputs)) := by
  unfold tickRecords collectBuckets
  have h := (collectBuckets_fold_perm (applyInputs gs.snakes inputs)
    (List.replicate NUM_BUCKETS []) (by rw [List.length_replicate]) hbound).2
  refine h.trans ?_
  have hflat : (List.replicate NUM_BUCKETS ([] : List MovementRecord)).flatten = [] := by
    induction NUM_BUCKETS with
    | zero => rfl
    | succ n ih => rw [List.replicate_succ, List.flatten_cons, List.nil_append, ih]
  rw [hflat, List.nil_append]

/-! Overlay lemmas -/

theorem overlay_nil (g0 : Grid) : overlay g0 [] = g0 := by
  funext q
  simp [overlay]

theorem overlay_get (g0 : Grid) (ch : List Point) (q : Point) :
    (overlay g0 ch).get_cell q = if q ∈ ch then Cell.Snake else g0.get_cell q := rfl

theorem overlay_set_cell (g0 : Grid) (ch : List Point) (p : Point) :
    (overlay g0 ch).set_cell p Cell.Snake = overlay g0 (p :: ch) := by
  funext q
  unfold overlay Grid.set_cell
  dsimp only
  by_cases h : q = p
  · subst h
    rw [if_pos rfl, if_pos (by simp)]
  · rw [if_neg h]
    by_cases h2 : q ∈ ch
    · rw [if_pos h2, if_pos (by simp [h2])]
    · rw [if_neg h2, if_neg (by simp [h, h2])]

theorem overlay_congr (g0 : Grid) (ch1 ch2 : List Point)
    (h : ∀ p, p ∈ ch1 ↔ p ∈ ch2) : overlay g0 ch1 = overlay g0 ch2 := by
  funext q
  unfold overlay
  by_cases h1 : q ∈ ch1
  · rw [if_pos h1, if_pos ((h q).mp h1)]
  · rw [if_neg h1, if_neg (fun h2 => h1 ((h q).mpr h2))]

/-! processRecord step lemmas -/

theorem processRecord_reject (ps : PassState) (r : MovementRecord)
    (hcell : ps.grid.get_cell r.new_head = Cell.Snake ∨
      ps.previous_new_head = some r.new_head) :
    processRecord ps r =
      { ps with
        snakes :=
          ps.snakes.set r.snake_id ((ps.snakes.getD r.snake_id default).mark_dead) } := by
  unfold processRecord
  by_cases h1 : ps.grid.get_cell r.new_head = Cell.Snake
  · rw [if_pos h1]
  · rw [if_neg h1, if_pos (hcell.resolve_left h1)]

theorem processRecord_commit (ps : PassState) (r : MovementRecord)
    (h1 : ps.grid.get_cell r.new_head ≠ Cell.Snake)
    (h2 : ps.previous_new_head ≠ some r.new_head) :
    processRecord ps r =
      { snakes :=
          ps.snakes.set r.snake_id
            ((ps.snakes.getD r.snake_id default).update_body
              (decide (ps.grid.get_cell r.new_head = Cell.Apple))),
        grid := ps.grid.set_cell r.new_head Cell.Snake,
        consumed_apples := ps.consumed_apples +
          (if ps.grid.get_cell r.new_head = Cell.Apple then 1 else 0),
        previous_new_head := some r.new_head,
        tail_buckets :=
          (if ps.grid.get_cell r.new_head = Cell.Apple then ps.tail_buckets
           else
            (match (ps.snakes.getD r.snake_id default).tail_position with
             | some tail_pos =>
                ps.tail_buckets.set (bucketIdx tail_pos)
                  (ps.tail_buckets.getD (bucketIdx tail_pos) [] ++ [tail_pos])
             | none => ps.tail_buckets)) } := by
  unfold processRecord
  rw [if_neg h1, if_neg h2]

/-! commitsAux lemmas -/

theorem commitsAux_nil (g0 : Grid) (ch : List Point) : commitsAux g0 [] ch = [] := rfl

theorem commitsAux_cons (g0 : Grid) (r : MovementRecord) (rs : List MovementRecord)
    (ch : List Point) :
    commitsAux g0 (r :: rs) ch =
      if g0.get_cell r.new_head ≠ Cell.Snake ∧ r.new_head ∉ ch then
        r :: commitsAux g0 rs (r.new_head :: ch)
      else commitsAux g0 rs ch := rfl

theorem commitsAux_sublist (g0 : Grid) :
    ∀ (rs : List MovementRecord) (ch : List Point), (commitsAux g0 rs ch).Sublist rs
  | [], _ => by simp [commitsAux]
  | r :: rs, ch => by
      rw [commitsAux_cons]
      split_ifs with h
      · exact (commitsAux_sublist g0 rs (r.new_head :: ch)).cons₂ r
      · exact (commitsAux_sublist g0 rs ch).cons r

theorem mem_commitsAux_prop (g0 : Grid) :
    ∀ (rs : List MovementRecord) (ch : List Point) (r : MovementRecord),
    r ∈ commitsAux g0 rs ch →
    g0.get_cell r.new_head ≠ Cell.Snake ∧ r.new_head ∉ ch
  | [], ch, r, h => by simp [commitsAux] at h
  | r' :: rs, ch, r, h => by
      rw [commitsAux_cons] at h
      split_ifs at h with hcond
      · rcases List.mem_cons.mp h with h1 | h1
        · subst h1
          exact hcond
        · have := mem_commitsAux_prop g0 rs (r'.new_head :: ch) r h1
          exact ⟨this.1, fun hc => this.2 (List.mem_cons_of_mem _ hc)⟩
      · exact mem_commitsAux_prop g0 rs ch r h

theorem commitsAux_heads_nodup (g0 : Grid) :
    ∀ (rs : List MovementRecord) (ch : List Point),
    ((commitsAux g0 rs ch).map (fun r => r.new_head)).Nodup
  | [], _ => by simp [commitsAux]
  | r :: rs, ch => by
      rw [commitsAux_cons]
      split_ifs with hcond
      · rw [List.map_cons, List.nodup_cons]
        refine ⟨?_, commitsAux_heads_nodup g0 rs (r.new_head :: ch)⟩
        intro hmem
        rcases List.mem_map.mp hmem with ⟨r', hr', hh⟩
        exact (mem_commitsAux_prop g0 rs (r.new_head :: ch) r' hr').2 (hh ▸ List.mem_cons_self _ _)
      · exact commitsAux_heads_nodup g0 rs ch

theorem commitsAux_all (g0 : Grid) :
    ∀ (rs : List MovementRecord) (ch : List Point),
    (∀ r ∈ rs, g0.get_cell r.new_head ≠ Cell.Snake) →
    (∀ r ∈ rs, r.new_head ∉ ch) →
    ((rs.map (fun r => r.new_head)).Nodup) →
    commitsAux g0 rs ch = rs
  | [], _, _, _, _ => rfl
  | r :: rs, ch, hsnake, hch, hnd => by
      rw [commitsAux_cons, if_pos ⟨hsnake r (by simp), hch r (by simp)⟩]
      rw [List.map_cons, List.nodup_cons] at hnd
      refine congrArg (r :: ·) (commitsAux_all g0 rs (r.new_head :: ch)
        (fun r' h => hsnake r' (List.mem_cons_of_mem _ h)) (fun r' h => ?_) hnd.2)
      intro hc
      rcases List.mem_cons.mp hc with h1 | h1
      · exact hnd.1 (h1 ▸ List.mem_map_of_mem (fun r => r.new_head) h)
      · exact hch r' (List.mem_cons_of_mem _ h) h1

theorem commitsAux_first_commit (g0 : Grid) (p : Point) (r1 : MovementRecord)
    (hr1 : r1.new_head = p) (hcell : g0.get_cell p ≠ Cell.Snake) :
    ∀ (l1 : List MovementRecord) (ch : List Point), p ∉ ch →
    (∀ r ∈ l1, r.new_head ≠ p) →
    ∀ rest, ∃ ch2, p ∈ ch2 ∧
      commitsAux g0 (l1 ++ r1 :: rest) ch =
        commitsAux g0 l1 ch ++ r1 :: commitsAux g0 rest ch2
  | [], ch, hp, _, rest => by
      refine ⟨r1.new_head :: ch, hr1 ▸ List.mem_cons_self _ _, ?_⟩
      rw [List.nil_append, commitsAux_cons, commitsAux_nil, List.nil_append,
        if_pos ⟨hr1 ▸ hcell, hr1 ▸ hp⟩]
  | r :: l1, ch, hp, hne, rest => by
      rw [List.cons_append, commitsAux_cons, commitsAux_cons]
      split_ifs with hcond
      · obtain ⟨ch2, hch2, heq⟩ := commitsAux_first_commit g0 p r1 hr1 hcell l1
          (r.new_head :: ch)
          (fun hc => (List.mem_cons.mp hc).elim
            (fun h => hne r (by simp) h.symm) hp)
          (fun r' h => hne r' (List.mem_cons_of_mem _ h)) rest
        exact ⟨ch2, hch2, by rw [heq, List.cons_append]⟩
      · obtain ⟨ch2, hch2, heq⟩ := commitsAux_first_commit g0 p r1 hr1 hcell l1 ch hp
          (fun r' h => hne r' (List.mem_cons_of_mem _ h)) rest
        exact ⟨ch2, hch2, heq⟩

/-! Master characterisation of the Phase 3-5 loop -/

theorem processRecords_spec (g0 : Grid) (base : Nat → Snake) :
    ∀ (rs : List MovementRecord) (ps : PassState) (ch : List Point),
    ((rs.map (fun r => r.snake_id)).Nodup) →
    (∀ r ∈ rs, ps.snakes.getD r.snake_id default = base r.snake_id) →
    (∀ r ∈ rs, r.snake_id < ps.snakes.length) →
    (ps.grid = overlay g0 ch) →
    (∀ p, ps.previous_new_head = some p → p ∈ ch) →
    (ps.tail_buckets.length = NUM_BUCKETS) →
    (∀ r ∈ rs, ∀ t, (base r.snake_id).tail_position = some t →
        bucketIdx t < NUM_BUCKETS) →
    (rs.foldl processRecord ps).snakes.length = ps.snakes.length ∧
    (rs.foldl processRecord ps).grid =
      overlay g0 (((commitsAux g0 rs ch).map (fun r => r.new_head)) ++ ch) ∧
    (rs.foldl processRecord ps).consumed_apples = ps.consumed_apples +
      (commitsAux g0 rs ch).countP
        (fun r => decide (g0.get_cell r.new_head = Cell.Apple)) ∧
    (rs.foldl processRecord ps).tail_buckets.length = NUM_BUCKETS ∧
    List.Perm ((rs.foldl processRecord ps).tail_buckets.flatten)
      (ps.tail_buckets.flatten ++ (commitsAux g0 rs ch).filterMap
        (fun r => if g0.get_cell r.new_head = Cell.Apple then none
          else (base r.snake_id).tail_position)) ∧
    (∀ p, (rs.foldl processRecord ps).previous_new_head = some p →
      p ∈ ((commitsAux g0 rs ch).map (fun r => r.new_head)) ++ ch) ∧
    (∀ j, j ∉ rs.map (fun r => r.snake_id) →
      (rs.foldl processRecord ps).snakes.getD j default = ps.snakes.getD j default) ∧
    (∀ r ∈ commitsAux g0 rs ch,
      (rs.foldl processRecord ps).snakes.getD r.snake_id default =
        (base r.snake_id).update_body (decide (g0.get_cell r.new_head = Cell.Apple))) ∧
    (∀ r ∈ rs, r ∉ commitsAux g0 rs ch →
      (rs.foldl processRecord ps).snakes.getD r.snake_id default =
        (base r.snake_id).mark_dead) := by
  intro rs
  induction rs with
  | nil =>
    intro ps ch _ _ _ hgrid hprev htb _
    rw [commitsAux_nil]
    simp only [List.foldl_nil, List.map_nil, List.nil_append, List.countP_nil,
      List.filterMap_nil, List.append_nil]
    refine ⟨by trivial, hgrid, by omega, htb, List.Perm.refl _, hprev, ?_, ?_, ?_⟩
    · intro j _
      trivial
    · intro r hr
      exact absurd hr (List.not_mem_nil r)
    · intro r hr
      exact absurd hr (List.not_mem_nil r)
  | cons r rs ih =>
    intro ps ch hnd hbase hlen hgrid hprev htb htail
    rw [List.map_cons, List.nodup_cons] at hnd
    obtain ⟨hnd1, hnd2⟩ := hnd
    have hmemr : r ∈ r :: rs := List.mem_cons_self r rs
    have hbr := hbase r hmemr
    have hlr := hlen r hmemr
    have hne_id : ∀ r' ∈ rs, r'.snake_id ≠ r.snake_id := by
      intro r' hr' heq
      exact hnd1 (heq ▸ List.mem_map_of_mem (fun x => x.snake_id) hr')
    have hcellval : ps.grid.get_cell r.new_head =
        (if r.new_head ∈ ch then Cell.Snake else g0.get_cell r.new_head) := by
      rw [hgrid]
      rfl
    by_cases hrej : g0.get_cell r.new_head = Cell.Snake ∨ r.new_head ∈ ch
    · -- this record is rejected: its snake is marked dead and nothing else changes
      have hcell : ps.grid.get_cell r.new_head = Cell.Snake ∨
          ps.previous_new_head = some r.new_head := by
        left
        rw [hcellval]
        by_cases hc : r.new_head ∈ ch
        · rw [if_pos hc]
        · rw [if_neg hc]
          exact hrej.resolve_right hc
      have hCL : commitsAux g0 (r :: rs) ch = commitsAux g0 rs ch := by
        rw [commitsAux_cons, if_neg (by tauto)]
      rw [List.foldl_cons, processRecord_reject ps r hcell, hCL]
      have hrec := ih
        { ps with snakes :=
            ps.snakes.set r.snake_id ((ps.snakes.getD r.snake_id default).mark_dead) }
        ch hnd2
        (fun r' hr' => by
          dsimp only
          rw [getD_set_ne _ _ _ _ (fun h => hne_id r' hr' h.symm)]
          exact hbase r' (List.mem_cons_of_mem _ hr'))
        (fun r' hr' => by
          dsimp only
          rw [List.length_set]
          exact hlen r' (List.mem_cons_of_mem _ hr'))
        hgrid hprev htb
        (fun r' hr' => htail r' (List.mem_cons_of_mem _ hr'))
      obtain ⟨k1, k2, k3, k4, k5, k6, k7, k8, k9⟩ := hrec
      refine ⟨by rw [k1]; exact List.length_set .., k2, k3, k4, k5, k6, ?_, ?_, ?_⟩
      · intro j hj
        rw [List.map_cons] at hj
        have hj1 : j ≠ r.snake_id := fun h => hj (h ▸ List.mem_cons_self _ _)
        have hj2 : j ∉ rs.map (fun x => x.snake_id) :=
          fun h => hj (List.mem_cons_of_mem _ h)
        rw [k7 j hj2]
        dsimp only
        rw [getD_set_ne _ _ _ _ (fun h => hj1 h.symm)]
      · exact k8
      · intro r' hr' hnc
        rcases List.mem_cons.mp hr' with h1 | h1
        · subst h1
          rw [k7 r'.snake_id hnd1]
          dsimp only
          rw [getD_set_self _ _ _ hlr, hbr]
        · exact k9 r' h1 hnc
    · -- this record commits
      push_neg at hrej
      obtain ⟨hcnS, hcnCh⟩ := hrej
      have hcell : ps.grid.get_cell r.new_head = g0.get_cell r.new_head := by
        rw [hcellval, if_neg hcnCh]
      have hprevne : ps.previous_new_head ≠ some r.new_head := by
        intro h
        exact hcnCh (hprev _ h)
      have hstep := processRecord_commit ps r (by rw [hcell]; exact hcnS) hprevne
      rw [hcell, hbr] at hstep
      have hCL : commitsAux g0 (r :: rs) ch =
          r :: commitsAux g0 rs (r.new_head :: ch) := by
        rw [commitsAux_cons, if_pos ⟨hcnS, hcnCh⟩]
      rw [List.foldl_cons, hstep, hCL]
      have htbC : (if g0.get_cell r.new_head = Cell.Apple then ps.tail_buckets
          else
            (match (base r.snake_id).tail_position with
             | some tail_pos =>
                ps.tail_buckets.set (bucketIdx tail_pos)
                  (ps.tail_buckets.getD (bucketIdx tail_pos) [] ++ [tail_pos])
             | none => ps.tail_buckets)).length = NUM_BUCKETS := by
        split_ifs
        · exact htb
        · cases hmatch : (base r.snake_id).tail_position with
          | some t => rw [List.length_set]; exact htb
          | none => exact htb
      have hrec := ih
        { snakes := ps.snakes.set r.snake_id
            ((base r.snake_id).update_body (decide (g0.get_cell r.new_head = Cell.Apple))),
          grid := ps.grid.set_cell r.new_head Cell.Snake,
          consumed_apples := ps.consumed_apples +
            (if g0.get_cell r.new_head = Cell.Apple then 1 else 0),
          previous_new_head := some r.new_head,
          tail_buckets :=
            (if g0.get_cell r.new_head = Cell.Apple then ps.tail_buckets
             else
              (match (base r.snake_id).tail_position with
               | some tail_pos =>
                  ps.tail_buckets.set (bucketIdx tail_pos)
                    (ps.tail_buckets.getD (bucketIdx tail_pos) [] ++ [tail_pos])
               | none => ps.tail_buckets)) }
        (r.new_head :: ch) hnd2
        (fun r' hr' => by
          dsimp only
          rw [getD_set_ne _ _ _ _ (fun h => hne_id r' hr' h.symm)]
          exact hbase r' (List.mem_cons_of_mem _ hr'))
        (fun r' hr' => by
          dsimp only
          rw [List.length_set]
          exact hlen r' (List.mem_cons_of_mem _ hr'))
        (by dsimp only; rw [hgrid, overlay_set_cell])
        (fun p hp => by
          dsimp only at hp
          rw [Option.some.injEq] at hp
          exact hp ▸ List.mem_cons_self _ _)
        htbC
        (fun r' hr' => htail r' (List.mem_cons_of_mem _ hr'))
      obtain ⟨k1, k2, k3, k4, k5, k6, k7, k8, k9⟩ := hrec
      have hmemiff : ∀ p : Point,
          p ∈ ((commitsAux g0 rs (r.new_head :: ch)).map (fun x => x.new_head))
              ++ (r.new_head :: ch) ↔
          p ∈ ((r :: commitsAux g0 rs (r.new_head :: ch)).map (fun x => x.new_head))
              ++ ch := by
        intro p
        simp only [List.mem_append, List.mem_cons, List.map_cons]
        tauto
      refine ⟨?_, ?_, ?_, k4, ?_, ?_, ?_, ?_, ?_⟩
      · rw [k1]
        dsimp only
        exact List.length_set ..
      · rw [k2]
        exact overlay_congr g0 _ _ hmemiff
      · rw [k3]
        dsimp only
        rw [List.countP_cons]
        by_cases hap : g0.get_cell r.new_head = Cell.Apple <;> simp [hap] <;> omega
      · -- tail bucket permutation
        refine k5.trans ?_
        dsimp only
        rw [List.filterMap_cons]
        by_cases hap : g0.get_cell r.new_head = Cell.Apple
        · rw [if_pos hap]
          simp only [hap, if_true]
          exact List.Perm.refl _
        · rw [if_neg hap]
          simp only [hap, if_false]
          cases hmatch : (base r.snake_id).tail_position with
          | some t =>
            have hpush := flatten_set_push ps.tail_buckets (bucketIdx t) t
              (by rw [htb]; exact htail r hmemr t hmatch)
            refine (hpush.append_right _).trans ?_
            rw [List.append_assoc, List.singleton_append]
          | none =>
            exact List.Perm.refl _
      · intro p hp
        rw [← hmemiff p]
        exact k6 p hp
      · intro j hj
        rw [List.map_cons] at hj
        have hj1 : j ≠ r.snake_id := fun h => hj (h ▸ List.mem_cons_self _ _)
        have hj2 : j ∉ rs.map (fun x => x.snake_id) :=
          fun h => hj (List.mem_cons_of_mem _ h)
        rw [k7 j hj2]
        dsimp only
        rw [getD_set_ne _ _ _ _ (fun h => hj1 h.symm)]
      · intro r' hr'
        rcases List.mem_cons.mp hr' with h1 | h1
        · subst h1
          rw [k7 r'.snake_id hnd1]
          dsimp only
          rw [getD_set_self _ _ _ hlr]
        · exact k8 r' h1
      · intro r' hr' hnc
        rcases List.mem_cons.mp hr' with h1 | h1
        · exact absurd (h1 ▸ List.mem_cons_self r _) hnc
        · exact k9 r' h1 (fun h => hnc (List.mem_cons_of_mem _ h))

/-! Bridging lemmas between tick and its phases -/

theorem processAllRecords_eq (init : PassState) (buckets : List (List MovementRecord)) :
    processAllRecords init buckets = buckets.flatten.foldl processRecord init := by
  unfold processAllRecords
  exact (List.foldl_flatten _ _ _).symm

theorem foldl_clear_apply :
    ∀ (l : List Point) (g : Grid) (q : Point),
    (l.foldl (fun g p => g.set_cell p Cell.Empty) g) q =
      if q ∈ l then Cell.Empty else g q
  | [], g, q => by simp
  | p :: l, g, q => by
      rw [List.foldl_cons, foldl_clear_apply l _ q]
      by_cases h : q ∈ l
      · rw [if_pos h, if_pos (List.mem_cons_of_mem _ h)]
      · rw [if_neg h]
        show (if q = p then Cell.Empty else g q) = _
        by_cases h2 : q = p
        · rw [if_pos h2, if_pos (by simp [h2])]
        · rw [if_neg h2, if_neg (by simp [h2, h])]

theorem clearTails_apply (g : Grid) (tbs : List (List Point)) (q : Point) :
    clearTails g tbs q = if q ∈ tbs.flatten then Cell.Empty else g q := by
  unfold clearTails
  rw [← List.foldl_flatten, foldl_clear_apply]

theorem tick_eq (gs : GameState) (inputs : List Input) (rng : List Point) :
    gs.tick inputs rng =
      ((⟨(processAllRecords
            ⟨applyInputs gs.snakes inputs, gs.grid, 0, none, List.replicate NUM_BUCKETS []⟩
            (collectBuckets (applyInputs gs.snakes inputs))).snakes,
          (spawnApples
            (processAllRecords
              ⟨applyInputs gs.snakes inputs, gs.grid, 0, none, List.replicate NUM_BUCKETS []⟩
              (collectBuckets (applyInputs gs.snakes inputs))).consumed_apples
            (clearTails
              (processAllRecords
                ⟨applyInputs gs.snakes inputs, gs.grid, 0, none,
                  List.replicate NUM_BUCKETS []⟩
                (collectBuckets (applyInputs gs.snakes inputs))).grid
              (processAllRecords
                ⟨applyInputs gs.snakes inputs, gs.grid, 0, none,
                  List.replicate NUM_BUCKETS []⟩
                (collectBuckets (applyInputs gs.snakes inputs))).tail_buckets)
            gs.num_apples rng).2.1,
          (spawnApples
            (processAllRecords
              ⟨applyInputs gs.snakes inputs, gs.grid, 0, none, List.replicate NUM_BUCKETS []⟩
              (collectBuckets (applyInputs gs.snakes inputs))).consumed_apples
            (clearTails
              (processAllRecords
                ⟨applyInputs gs.snakes inputs, gs.grid, 0, none,
                  List.replicate NUM_BUCKETS []⟩
                (collectBuckets (applyInputs gs.snakes inputs))).grid
              (processAllRecords
                ⟨applyInputs gs.snakes inputs, gs.grid, 0, none,
                  List.replicate NUM_BUCKETS []⟩
                (collectBuckets (applyInputs gs.snakes inputs))).tail_buckets)
            gs.num_apples rng).1⟩ : GameState),
        (spawnApples
          (processAllRecords
            ⟨applyInputs gs.snakes inputs, gs.grid, 0, none, List.replicate NUM_BUCKETS []⟩
            (collectBuckets (applyInputs gs.snakes inputs))).consumed_apples
          (clearTails
            (processAllRecords
              ⟨applyInputs gs.snakes inputs, gs.grid, 0, none, List.replicate NUM_BUCKETS []⟩
              (collectBuckets (applyInputs gs.snakes inputs))).grid
            (processAllRecords
              ⟨applyInputs gs.snakes inputs, gs.grid, 0, none, List.replicate NUM_BUCKETS []⟩
              (collectBuckets (applyInputs gs.snakes inputs))).tail_buckets)
          gs.num_apples rng).2.2) := rfl

theorem tick_components (gs : GameState) (inputs : List Input) (rng : List Point) :
    (gs.tick inputs rng).1.snakes =
      ((tickRecords gs inputs).foldl processRecord
        ⟨applyInputs gs.snakes inputs, gs.grid, 0, none,
          List.replicate NUM_BUCKETS []⟩).snakes ∧
    (gs.tick inputs rng).1.grid =
      (spawnApples
        ((tickRecords gs inputs).foldl processRecord
          ⟨applyInputs gs.snakes inputs, gs.grid, 0, none,
            List.replicate NUM_BUCKETS []⟩).consumed_apples
        (clearTails
          ((tickRecords gs inputs).foldl processRecord
            ⟨applyInputs gs.snakes inputs, gs.grid, 0, none,
              List.replicate NUM_BUCKETS []⟩).grid
          ((tickRecords gs inputs).foldl processRecord
            ⟨applyInputs gs.snakes inputs, gs.grid, 0, none,
              List.replicate NUM_BUCKETS []⟩).tail_buckets)
        gs.num_apples rng).1 ∧
    (gs.tick inputs rng).1.num_apples =
      (spawnApples
        ((tickRecords gs inputs).foldl processRecord
          ⟨applyInputs gs.snakes inputs, gs.grid, 0, none,
            List.replicate NUM_BUCKETS []⟩).consumed_apples
        (clearTails
          ((tickRecords gs inputs).foldl processRecord
            ⟨applyInputs gs.snakes inputs, gs.grid, 0, none,
              List.replicate NUM_BUCKETS []⟩).grid
          ((tickRecords gs inputs).foldl processRecord
            ⟨applyInputs gs.snakes inputs, gs.grid, 0, none,
              List.replicate NUM_BUCKETS []⟩).tail_buckets)
        gs.num_apples rng).2.1 ∧
    (gs.tick inputs rng).2 =
      (spawnApples
        ((tickRecords gs inputs).foldl processRecord
          ⟨applyInputs gs.snakes inputs, gs.grid, 0, none,
            List.replicate NUM_BUCKETS []⟩).consumed_apples
        (clearTails
          ((tickRecords gs inputs).foldl processRecord
            ⟨applyInputs gs.snakes inputs, gs.grid, 0, none,
              List.replicate NUM_BUCKETS []⟩).grid
          ((tickRecords gs inputs).foldl processRecord
            ⟨applyInputs gs.snakes inputs, gs.grid, 0, none,
              List.replicate NUM_BUCKETS []⟩).tail_buckets)
        gs.num_apples rng).2.2 := by
  rw [tick_eq, processAllRecords_eq]
  exact ⟨rfl, rfl, rfl, rfl⟩

/-! Bounds -/

theorem bucketIdx_lt (p : Point) (hy : p.y < GRID_HEIGHT) : bucketIdx p < NUM_BUCKETS := by
  have h1 : bucketIdx p = p.y / 256 := by
    unfold bucketIdx BUCKET_BITS
    rw [Nat.shiftRight_eq_div_pow]
  have h2 : NUM_BUCKETS = 256 := by decide
  rw [h1, h2]
  unfold GRID_HEIGHT at hy
  omega

theorem calc_new_head_bounds (s : Snake) (hx : s.body.headI.x < GRID_WIDTH)
    (hy : s.body.headI.y < GRID_HEIGHT) :
    s.calculate_new_head.x < GRID_WIDTH ∧ s.calculate_new_head.y < GRID_HEIGHT := by
  rcases s with ⟨id, body, dir, alive⟩
  cases dir <;>
    (simp only [Snake.calculate_new_head, GRID_WIDTH, GRID_HEIGHT] at hx hy ⊢;
      constructor <;> (dsimp only; first | (split_ifs <;> omega) | omega))

theorem tail_position_mem (s : Snake) (t : Point) (h : s.tail_position = some t) :
    t ∈ s.body := by
  unfold Snake.tail_position at h
  split_ifs at h
  · exact List.get?_mem h

/-! Validity of the records list of a tick, from well-formedness -/

theorem headI_mem {α : Type} [Inhabited α] : ∀ {l : List α}, l ≠ [] → l.headI ∈ l
  | [], h => absurd rfl h
  | a :: l, _ => by rw [List.headI_cons]; exact List.mem_cons_self a l

theorem mem_getD_index {α : Type} [Inhabited α] {l : List α} {a : α} (h : a ∈ l) :
    ∃ j, j < l.length ∧ l.getD j default = a := by
  obtain ⟨j, hj, he⟩ := List.getElem_of_mem h
  exact ⟨j, hj, by rw [List.getD_eq_getElem l default hj]; exact he⟩

theorem getD_mem {α : Type} [Inhabited α] {l : List α} {j : Nat} (h : j < l.length) :
    l.getD j default ∈ l := by
  rw [List.getD_eq_getElem l default h]
  exact List.getElem_mem h

theorem map_id_eq_range (sn : List Snake)
    (hid : ∀ i, i < sn.length → (sn.getD i default).id = i) :
    sn.map (fun s => s.id) = List.range sn.length := by
  refine List.ext_getElem (by simp) ?_
  intro i h1 h2
  rw [List.getElem_map, List.getElem_range]
  have hi : i < sn.length := by simpa using h1
  have := hid i hi
  rwa [List.getD_eq_getElem sn default hi] at this

-- All facts about the post-input snake array sn1 that the pass needs.
theorem snakes1_facts (gs : GameState) (inputs : List Input) (hwf : WellFormed gs) :
    (applyInputs gs.snakes inputs).length = gs.snakes.length ∧
    (∀ i, i < gs.snakes.length →
      ((applyInputs gs.snakes inputs).getD i default).id = i ∧
      ((applyInputs gs.snakes inputs).getD i default).body =
        (gs.snakes.getD i default).body ∧
      ((applyInputs gs.snakes inputs).getD i default).is_alive =
        (gs.snakes.getD i default).is_alive) := by
  obtain ⟨hlen, hfields⟩ := applyInputs_fields gs.snakes inputs
  exact ⟨hlen, fun i hi =>
    ⟨(hfields i).1.trans (hwf.1 i hi), (hfields i).2.1, (hfields i).2.2⟩⟩

-- Each record of a tick belongs to an alive snake stored at index snake_id,
-- carries that snake's computed new head, the ids are distinct, and every
-- alive snake has a record.
theorem tickRecords_valid (gs : GameState) (inputs : List Input) (hwf : WellFormed gs) :
    (∀ r ∈ tickRecords gs inputs,
      r.snake_id < gs.snakes.length ∧
      ((applyInputs gs.snakes inputs).getD r.snake_id default).is_alive = true ∧
      r.new_head =
        ((applyInputs gs.snakes inputs).getD r.snake_id default).calculate_new_head) ∧
    ((tickRecords gs inputs).map (fun r => r.snake_id)).Nodup ∧
    (∀ j, j < gs.snakes.length →
      ((applyInputs gs.snakes inputs).getD j default).is_alive = true →
      j ∈ (tickRecords gs inputs).map (fun r => r.snake_id)) := by
  obtain ⟨hlen1, hf1⟩ := snakes1_facts gs inputs hwf
  -- alive snakes of sn1 have in-bounds bodies (from WF through body preservation)
  have hbody : ∀ s ∈ applyInputs gs.snakes inputs, s.is_alive = true →
      s.body ≠ [] ∧ ∀ p ∈ s.body, p.x < GRID_WIDTH ∧ p.y < GRID_HEIGHT := by
    intro s hs hsa
    obtain ⟨j, hj, hje⟩ := mem_getD_index hs
    have hj' : j < gs.snakes.length := by rwa [hlen1] at hj
    have horig := hwf.2.1 (gs.snakes.getD j default) (getD_mem hj')
    have hb := (hf1 j hj').2.1
    have ha := (hf1 j hj').2.2
    rw [hje] at hb ha
    have := horig (by rw [← ha, hsa])
    exact ⟨hb ▸ this.1, fun p hp => ⟨(this.2.2 p (hb ▸ hp)).1, (this.2.2 p (hb ▸ hp)).2.1⟩⟩
  have hbound : ∀ s ∈ applyInputs gs.snakes inputs, s.is_alive = true →
      bucketIdx s.calculate_new_head < NUM_BUCKETS := by
    intro s hs hsa
    obtain ⟨hne, hbp⟩ := hbody s hs hsa
    have hhead : s.body.headI ∈ s.body := headI_mem hne
    obtain ⟨hhx, hhy⟩ := hbp s.body.headI hhead
    exact bucketIdx_lt _ (calc_new_head_bounds s hhx hhy).2
  have hperm := tickRecords_perm gs inputs hbound
  -- member characterisation
  have hmem : ∀ r ∈ tickRecords gs inputs, ∃ s ∈ applyInputs gs.snakes inputs,
      s.is_alive = true ∧ r = ⟨s.id, s.calculate_new_head, Cell.Empty⟩ := by
    intro r hr
    have := hperm.mem_iff.mp hr
    unfold aliveRecords at this
    obtain ⟨s, hs, he⟩ := List.mem_map.mp this
    exact ⟨s, List.mem_of_mem_filter hs, by simpa using List.of_mem_filter hs, he.symm⟩
  refine ⟨?_, ?_, ?_⟩
  · intro r hr
    obtain ⟨s, hs, hsa, hre⟩ := hmem r hr
    obtain ⟨j, hj, hje⟩ := mem_getD_index hs
    have hj' : j < gs.snakes.length := by rwa [hlen1] at hj
    have hid : s.id = j := by rw [← hje]; exact (hf1 j hj').1
    subst hre
    dsimp only
    rw [hid, hje]
    exact ⟨hj', hsa, rfl⟩
  · have h2 : List.Perm ((tickRecords gs inputs).map (fun r => r.snake_id))
        ((aliveRecords (applyInputs gs.snakes inputs)).map (fun r => r.snake_id)) :=
      hperm.map _
    rw [h2.nodup_iff]
    unfold aliveRecords
    rw [List.map_map]
    have hsub : ((applyInputs gs.snakes inputs).filter (fun s => s.is_alive)).Sublist
        (applyInputs gs.snakes inputs) := List.filter_sublist _
    have : (((applyInputs gs.snakes inputs).filter (fun s => s.is_alive)).map
        (fun s => s.id)).Sublist ((applyInputs gs.snakes inputs).map (fun s => s.id)) :=
      hsub.map _
    refine List.Nodup.sublist this ?_
    rw [map_id_eq_range _ (fun i hi => (hf1 i (by rwa [hlen1] at hi)).1.trans rfl)]
    exact List.nodup_range _
  · intro j hj hja
    have hsmem : (applyInputs gs.snakes inputs).getD j default ∈
        applyInputs gs.snakes inputs := getD_mem (by rwa [hlen1])
    have hid := (hf1 j hj).1
    have hrec : (⟨j,
        ((applyInputs gs.snakes inputs).getD j default).calculate_new_head,
        Cell.Empty⟩ : MovementRecord) ∈ aliveRecords (applyInputs gs.snakes inputs) := by
      unfold aliveRecords
      refine List.mem_map.mpr ⟨(applyInputs gs.snakes inputs).getD j default,
        List.mem_filter.mpr ⟨hsmem, by simpa using hja⟩, ?_⟩
      dsimp only
      rw [hid]
    have := hperm.mem_iff.mpr hrec
    have hmap := List.mem_map_of_mem (fun r => r.snake_id) this
    simpa using hmap

theorem flatten_replicate_nil {α : Type} :
    ∀ n : Nat, (List.replicate n ([] : List α)).flatten = []
  | 0 => rfl
  | n + 1 => by
      rw [List.replicate_succ, List.flatten_cons, List.nil_append,
        flatten_replicate_nil n]

/-! Central characterisation of one tick from a well-formed state -/

theorem tick_spec (gs : GameState) (inputs : List Input) (rng : List Point)
    (hwf : WellFormed gs) :
    (gs.tick inputs rng).1.snakes.length = gs.snakes.length ∧
    (∀ r ∈ tickCommits gs inputs,
      (gs.tick inputs rng).1.snakes.getD r.snake_id default =
        ((applyInputs gs.snakes inputs).getD r.snake_id default).update_body
          (decide (gs.grid.get_cell r.new_head = Cell.Apple))) ∧
    (∀ r ∈ tickRecords gs inputs, r ∉ tickCommits gs inputs →
      (gs.tick inputs rng).1.snakes.getD r.snake_id default =
        ((applyInputs gs.snakes inputs).getD r.snake_id default).mark_dead) ∧
    (∀ j, j ∉ (tickRecords gs inputs).map (fun r => r.snake_id) →
      (gs.tick inputs rng).1.snakes.getD j default =
        (applyInputs gs.snakes inputs).getD j default) ∧
    (gs.tick inputs rng).1.grid =
      (spawnApples (tickConsumed gs inputs) (tickGrid6 gs inputs) gs.num_apples rng).1 ∧
    (gs.tick inputs rng).1.num_apples =
      (spawnApples (tickConsumed gs inputs) (tickGrid6 gs inputs) gs.num_apples rng).2.1 ∧
    (gs.tick inputs rng).2 =
      (spawnApples (tickConsumed gs inputs) (tickGrid6 gs inputs) gs.num_apples rng).2.2 := by
  obtain ⟨hvalid, hnd, _⟩ := tickRecords_valid gs inputs hwf
  obtain ⟨hlen1, hf1⟩ := snakes1_facts gs inputs hwf
  have hspec := processRecords_spec gs.grid
    (fun j => (applyInputs gs.snakes inputs).getD j default)
    (tickRecords gs inputs)
    ⟨applyInputs gs.snakes inputs, gs.grid, 0, none, List.replicate NUM_BUCKETS []⟩
    [] hnd
    (fun r _ => rfl)
    (fun r hr => by
      dsimp only
      rw [hlen1]
      exact (hvalid r hr).1)
    (by dsimp only; exact (overlay_nil gs.grid).symm)
    (fun p hp => by exact Option.noConfusion hp)
    (by dsimp only; exact List.length_replicate ..)
    (fun r hr t ht => by
      have hmem := tail_position_mem _ t ht
      have hj := (hvalid r hr).1
      have hbody := (hf1 r.snake_id hj).2.1
      have halive := (hf1 r.snake_id hj).2.2
      rw [hbody] at hmem
      have horig := hwf.2.1 (gs.snakes.getD r.snake_id default) (getD_mem hj)
      have horig2 := horig (by rw [← halive]; exact (hvalid r hr).2.1)
      exact bucketIdx_lt t (horig2.2.2 t hmem).2.1)
  obtain ⟨k1, k2, k3, k4, k5, k6, k7, k8, k9⟩ := hspec
  obtain ⟨hc1, hc2, hc3, hc4⟩ := tick_components gs inputs rng
  have hCL : commitsAux gs.grid (tickRecords gs inputs) [] = tickCommits gs inputs := rfl
  have hcons : ((tickRecords gs inputs).foldl processRecord
      ⟨applyInputs gs.snakes inputs, gs.grid, 0, none,
        List.replicate NUM_BUCKETS []⟩).consumed_apples = tickConsumed gs inputs := by
    rw [k3, hCL]
    unfold tickConsumed
    dsimp only
    omega
  have hgrid6 : clearTails
      ((tickRecords gs inputs).foldl processRecord
        ⟨applyInputs gs.snakes inputs, gs.grid, 0, none,
          List.replicate NUM_BUCKETS []⟩).grid
      ((tickRecords gs inputs).foldl processRecord
        ⟨applyInputs gs.snakes inputs, gs.grid, 0, none,
          List.replicate NUM_BUCKETS []⟩).tail_buckets = tickGrid6 gs inputs := by
    funext q
    rw [clearTails_apply]
    have hperm : List.Perm ((tickRecords gs inputs).foldl processRecord
        ⟨applyInputs gs.snakes inputs, gs.grid, 0, none,
          List.replicate NUM_BUCKETS []⟩).tail_buckets.flatten (tickTails gs inputs) := by
      refine k5.trans ?_
      dsimp only
      rw [flatten_replicate_nil, List.nil_append, hCL]
      exact List.Perm.refl _
    unfold tickGrid6
    rw [k2, hCL]
    by_cases hq : q ∈ tickTails gs inputs
    · rw [if_pos (hperm.mem_iff.mpr hq), if_pos hq]
    · rw [if_neg (fun h => hq (hperm.mem_iff.mp h)), if_neg hq]
      rw [List.append_nil]
  refine ⟨?_, ?_, ?_, ?_, ?_, ?_, ?_⟩
  · rw [hc1, k1]
    dsimp only
    exact hlen1
  · intro r hr
    rw [hc1]
    exact k8 r (by rw [hCL]; exact hr)
  · intro r hr hnc
    rw [hc1]
    exact k9 r hr (by rw [hCL]; exact hnc)
  · intro j hj
    rw [hc1]
    exact k7 j hj
  · rw [hc2, hcons, hgrid6]
  · rw [hc3, hcons, hgrid6]
  · rw [hc4, hcons, hgrid6]

/-! Spawn-phase lemmas -/

theorem spawnAppleLoop_preserves :
    ∀ (fuel : Nat) (g : Grid) (n : Nat) (rng : List Point) (q : Point),
    (spawnAppleLoop fuel g n rng).1 q = g q ∨
      (g q = Cell.Empty ∧ (spawnAppleLoop fuel g n rng).1 q = Cell.Apple)
  | 0, g, n, rng, q => Or.inl rfl
  | fuel + 1, g, n, [], q => Or.inl rfl
  | fuel + 1, g, n, p :: rng, q => by
      rw [spawnAppleLoop]
      by_cases hp : g.get_cell p = Cell.Empty
      · rw [if_pos hp]
        unfold Grid.set_cell
        dsimp only
        by_cases hq : q = p
        · right
          subst hq
          rw [if_pos rfl]
          exact ⟨hp, rfl⟩
        · left
          rw [if_neg hq]
      · rw [if_neg hp]
        exact spawnAppleLoop_preserves fuel g n rng q

theorem spawn_apple_preserves (g : Grid) (n : Nat) (rng : List Point) (q : Point) :
    (spawn_apple g n rng).1 q = g q ∨
      (g q = Cell.Empty ∧ (spawn_apple g n rng).1 q = Cell.Apple) := by
  unfold spawn_apple
  split_ifs
  · exact Or.inl rfl
  · exact spawnAppleLoop_preserves RESPAWN_ATTEMPTS g n rng q

theorem spawnApples_preserves :
    ∀ (k : Nat) (g : Grid) (n : Nat) (rng : List Point) (q : Point),
    (spawnApples k g n rng).1 q = g q ∨
      (g q = Cell.Empty ∧ (spawnApples k g n rng).1 q = Cell.Apple)
  | 0, g, n, rng, q => Or.inl rfl
  | k + 1, g, n, rng, q => by
      rw [spawnApples]
      rcases spawn_apple_preserves g n rng q with h | ⟨h1, h2⟩
      · rcases spawnApples_preserves k (spawn_apple g n rng).1 (spawn_apple g n rng).2.1
          (spawn_apple g n rng).2.2 q with h3 | ⟨h3, h4⟩
        · exact Or.inl (h3.trans h)
        · exact Or.inr ⟨h ▸ h3, h4⟩
      · rcases spawnApples_preserves k (spawn_apple g n rng).1 (spawn_apple g n rng).2.1
          (spawn_apple g n rng).2.2 q with h3 | ⟨h3, h4⟩
        · exact Or.inr ⟨h1, h3.trans h2⟩
        · rw [h2] at h3
          exact absurd h3 (by simp)

theorem spawnAppleLoop_num :
    ∀ (fuel : Nat) (g : Grid) (n : Nat) (rng : List Point),
    (spawnAppleLoop fuel g n rng).2.1 = n ∨ (spawnAppleLoop fuel g n rng).2.1 = n + 1
  | 0, _, n, _ => Or.inl rfl
  | _ + 1, _, n, [] => Or.inl rfl
  | fuel + 1, g, n, p :: rng => by
      rw [spawnAppleLoop]
      by_cases hp : g.get_cell p = Cell.Empty
      · rw [if_pos hp]
        exact Or.inr rfl
      · rw [if_neg hp]
        exact spawnAppleLoop_num fuel g n rng

theorem spawnApples_num_le :
    ∀ (k : Nat) (g : Grid) (n : Nat) (rng : List Point),
    n ≤ APPLE_CAPACITY → (spawnApples k g n rng).2.1 ≤ APPLE_CAPACITY
  | 0, _, _, _, h => h
  | k + 1, g, n, rng, h => by
      rw [spawnApples]
      refine spawnApples_num_le k _ _ _ ?_
      unfold spawn_apple
      split_ifs with hcap
      · exact h
      · rcases spawnAppleLoop_num RESPAWN_ATTEMPTS g n rng with h1 | h1 <;> omega

/-! Facts about the committed heads and recorded tails -/

theorem tickTails_snake (gs : GameState) (inputs : List Input) (hwf : WellFormed gs) :
    ∀ t ∈ tickTails gs inputs,
    gs.grid.get_cell t = Cell.Snake ∧
    ∃ r ∈ tickCommits gs inputs,
      gs.grid.get_cell r.new_head ≠ Cell.Apple ∧
      ((applyInputs gs.snakes inputs).getD r.snake_id default).tail_position = some t := by
  intro t ht
  obtain ⟨hvalid, hnd, hcover⟩ := tickRecords_valid gs inputs hwf
  obtain ⟨hlen1, hf1⟩ := snakes1_facts gs inputs hwf
  unfold tickTails at ht
  obtain ⟨r, hr, hrt⟩ := List.mem_filterMap.mp ht
  by_cases hap : gs.grid.get_cell r.new_head = Cell.Apple
  · rw [if_pos hap] at hrt
    exact absurd hrt (by simp)
  · rw [if_neg hap] at hrt
    have hrrec : r ∈ tickRecords gs inputs :=
      (commitsAux_sublist gs.grid (tickRecords gs inputs) []).mem hr
    have hj := (hvalid r hrrec).1
    have halive := (hvalid r hrrec).2.1
    have hmem := tail_position_mem _ t hrt
    rw [(hf1 r.snake_id hj).2.1] at hmem
    have horig := hwf.2.1 (gs.snakes.getD r.snake_id default) (getD_mem hj)
    have horig2 := horig (by rw [← (hf1 r.snake_id hj).2.2]; exact halive)
    exact ⟨(horig2.2.2 t hmem).2.2, r, hr, hap, hrt⟩

theorem tickCommits_head_not_snake (gs : GameState) (inputs : List Input) :
    ∀ r ∈ tickCommits gs inputs, gs.grid.get_cell r.new_head ≠ Cell.Snake := by
  intro r hr
  exact (mem_commitsAux_prop gs.grid (tickRecords gs inputs) [] r hr).1

theorem tickTails_not_head (gs : GameState) (inputs : List Input) (hwf : WellFormed gs) :
    ∀ r ∈ tickCommits gs inputs, r.new_head ∉ tickTails gs inputs := by
  intro r hr hmem
  exact (tickCommits_head_not_snake gs inputs r hr)
    (tickTails_snake gs inputs hwf r.new_head hmem).1

theorem tickRecords_perm_wf (gs : GameState) (inputs : List Input)
    (hwf : WellFormed gs) :
    List.Perm (tickRecords gs inputs) (aliveRecords (applyInputs gs.snakes inputs)) := by
  obtain ⟨hlen1, hf1⟩ := snakes1_facts gs inputs hwf
  refine tickRecords_perm gs inputs ?_
  intro s hs hsa
  obtain ⟨j, hj, hje⟩ := mem_getD_index hs
  have hj' : j < gs.snakes.length := by rwa [hlen1] at hj
  have hb := (hf1 j hj').2.1
  have ha := (hf1 j hj').2.2
  rw [hje] at hb ha
  have horig := hwf.2.1 (gs.snakes.getD j default) (getD_mem hj')
  have horig2 := horig (by rw [← ha, hsa])
  have hhead : s.body.headI ∈ s.body := headI_mem (hb ▸ horig2.1)
  have hbp := horig2.2.2 s.body.headI (hb ▸ hhead)
  exact bucketIdx_lt _ (calc_new_head_bounds s hbp.1 hbp.2.1).2

/-- C3 (amended): from a well-formed state, a tick with no inputs in which no
alive snake's computed new head lands on an Apple or Snake cell and all alive
snakes' computed new heads are pairwise distinct shifts each alive snake
forward by one cell in its direction (new body = new head followed by the old
body with its last segment dropped), keeps it alive, preserves every body
length, leaves dead snakes untouched, and preserves both the tracked apple
count and the number of Apple cells on the grid; in the literal single-snake
scenario the snake at (500,500) heading Right ends at (501,500) with Snake
and Empty cells placed accordingly. -/
theorem c3_empty_tick_law :
    (∀ (gs : GameState) (rng : List Point),
      WellFormed gs →
      (∀ s ∈ gs.snakes, s.is_alive = true →
        gs.grid.get_cell s.calculate_new_head ≠ Cell.Apple ∧
        gs.grid.get_cell s.calculate_new_head ≠ Cell.Snake) →
      (((gs.snakes.filter (fun s => s.is_alive)).map
        (fun s => s.calculate_new_head)).Nodup) →
      (gs.tick [] rng).1.snakes.length = gs.snakes.length ∧
      (∀ j, j < gs.snakes.length → (gs.snakes.getD j default).is_alive = true →
        ((gs.tick [] rng).1.snakes.getD j default).body =
          (gs.snakes.getD j default).calculate_new_head ::
            (gs.snakes.getD j default).body.dropLast ∧
        ((gs.tick [] rng).1.snakes.getD j default).is_alive = true ∧
        ((gs.tick [] rng).1.snakes.getD j default).body.length =
          (gs.snakes.getD j default).body.length) ∧
      (∀ j, j < gs.snakes.length → (gs.snakes.getD j default).is_alive = false →
        (gs.tick [] rng).1.snakes.getD j default = gs.snakes.getD j default) ∧
      (gs.tick [] rng).1.num_apples = gs.num_apples ∧
      appleCount (gs.tick [] rng).1.grid = appleCount gs.grid ∧
      (gs.tick [] rng).2 = rng) ∧
    (((stMoveEast.tick [] []).1.snakes.getD 0 default).body = [⟨501, 500⟩] ∧
      ((stMoveEast.tick [] []).1.snakes.getD 0 default).is_alive = true ∧
      (stMoveEast.tick [] []).1.grid.get_cell ⟨501, 500⟩ = Cell.Snake ∧
      (stMoveEast.tick [] []).1.grid.get_cell ⟨500, 500⟩ = Cell.Empty) := by
  constructor
  · intro gs rng hwf hempty hdist
    obtain ⟨hvalid, hnd, hcover⟩ := tickRecords_valid gs [] hwf
    have happly : applyInputs gs.snakes [] = gs.snakes := rfl
    rw [happly] at hvalid hcover
    have hrsna : ∀ r ∈ tickRecords gs [],
        gs.grid.get_cell r.new_head ≠ Cell.Snake ∧
        gs.grid.get_cell r.new_head ≠ Cell.Apple := by
      intro r hr
      have h1 := hvalid r hr
      have hs := @getD_mem Snake _ gs.snakes r.snake_id h1.1
      have h2 := hempty _ hs h1.2.1
      rw [h1.2.2]
      exact ⟨h2.2, h2.1⟩
    have hheads : ((tickRecords gs []).map (fun r => r.new_head)).Nodup := by
      have hperm := (tickRecords_perm_wf gs [] hwf).map (fun r => r.new_head)
      rw [happly] at hperm
      rw [hperm.nodup_iff]
      unfold aliveRecords
      rw [List.map_map]
      exact hdist
    have hCLall : tickCommits gs [] = tickRecords gs [] := by
      unfold tickCommits
      exact commitsAux_all gs.grid (tickRecords gs []) []
        (fun r hr => (hrsna r hr).1) (fun r _ => List.not_mem_nil _) hheads
    have hcons0 : tickConsumed gs [] = 0 := by
      unfold tickConsumed
      rw [hCLall]
      rw [List.countP_eq_zero]
      intro r hr
      simp only [decide_eq_true_eq]
      exact (hrsna r hr).2
    obtain ⟨t1, t2, t3, t4, t5, t6, t7⟩ := tick_spec gs [] rng hwf
    rw [happly] at t2 t3 t4
    rw [hcons0] at t5 t6 t7
    have hspawn0 : spawnApples 0 (tickGrid6 gs []) gs.num_apples rng =
        (tickGrid6 gs [], gs.num_apples, rng) := rfl
    rw [hspawn0] at t5 t6 t7
    refine ⟨t1, ?_, ?_, t6, ?_, t7⟩
    · intro j hj hja
      obtain ⟨r, hr, hrj⟩ := List.mem_map.mp (hcover j hj hja)
      have hrc : r ∈ tickCommits gs [] := by rw [hCLall]; exact hr
      have hupd := t2 r hrc
      have hdec : decide (gs.grid.get_cell r.new_head = Cell.Apple) = false :=
        decide_eq_false (hrsna r hr).2
      rw [hdec] at hupd
      rw [hrj] at hupd
      have hfields := update_body_fields (gs.snakes.getD j default) false
      have hne : (gs.snakes.getD j default).body ≠ [] :=
        (hwf.2.1 _ (getD_mem hj) hja).1
      rw [hupd]
      refine ⟨?_, hfields.2.2.1.trans hja, ?_⟩
      · rw [hfields.2.2.2]
        rw [if_neg (by simp)]
        exact List.dropLast_cons_of_ne_nil hne
      · rw [hfields.2.2.2, if_neg (by simp)]
        rw [List.length_dropLast, List.length_cons]
        have : (gs.snakes.getD j default).body.length ≠ 0 :=
          fun h => hne (List.length_eq_zero.mp h)
        omega
    · intro j hj hjd
      refine (t4 j ?_).trans rfl
      intro hmem
      obtain ⟨r, hr, hrj⟩ := List.mem_map.mp hmem
      have := (hvalid r hr).2.1
      rw [hrj] at this
      rw [this] at hjd
      exact Bool.noConfusion hjd
    · rw [t5]
      refine appleCount_congr _ _ (fun q => ?_)
      unfold tickGrid6
      dsimp only
      by_cases hq : q ∈ tickTails gs []
      · rw [if_pos hq]
        have h2 : gs.grid q = Cell.Snake := (tickTails_snake gs [] hwf q hq).1
        constructor
        · intro h; exact absurd h (by simp)
        · intro h; rw [h2] at h; exact absurd h (by simp)
      · rw [if_neg hq]
        unfold overlay
        by_cases hh : q ∈ (tickCommits gs []).map (fun r => r.new_head)
        · rw [if_pos hh]
          obtain ⟨r, hr, hrq⟩ := List.mem_map.mp hh
          rw [hCLall] at hr
          have := (hrsna r hr).2
          rw [hrq] at this
          constructor
          · intro h; exact absurd h (by simp)
          · intro h; exact absurd h this
        · rw [if_neg hh]
  · exact ⟨by decide, by decide, by decide, by decide⟩

/-- Counterexample for C3 as stated: two snakes whose new heads are the same
Empty cell (501,500).  No alive snake's new head is an Apple or Snake cell,
yet the later-processed snake dies instead of moving forward. -/
theorem c3_counterexample :
    (∀ s ∈ stHeadOn.snakes, s.is_alive = true →
      stHeadOn.grid.get_cell s.calculate_new_head ≠ Cell.Apple ∧
      stHeadOn.grid.get_cell s.calculate_new_head ≠ Cell.Snake) ∧
    WellFormed stHeadOn ∧
    ((stHeadOn.tick [] []).1.snakes.getD 1 default).is_alive = false := by
  exact ⟨by decide, by decide, by decide⟩

/-- Witness for C3: the single-snake scenario state satisfies the theorem's
hypotheses and the snake shifts east. -/
theorem c3_witness :
    WellFormed stMoveEast ∧
    (stMoveEast.tick [] []).1.num_apples = stMoveEast.num_apples ∧
    appleCount (stMoveEast.tick [] []).1.grid = appleCount stMoveEast.grid ∧
    ((stMoveEast.tick [] []).1.snakes.getD 0 default).body =
      (stMoveEast.snakes.getD 0 default).calculate_new_head ::
        (stMoveEast.snakes.getD 0 default).body.dropLast := by
  have h := c3_empty_tick_law.1 stMoveEast [] (by decide) (by decide) (by decide)
  exact ⟨by decide, h.2.2.2.1, h.2.2.2.2.1, (h.2.1 0 (by decide) (by decide)).1⟩

/-- C4 (amended): within one tick from a well-formed state, if two records
target the same cell, no earlier-processed record targets that cell, and the
pre-tick grid does not hold Snake there, then the earlier record's snake
commits the cell and survives (its new head is that cell) while the later
record's snake is marked dead without moving (its body is unchanged). -/
theorem c4_head_on_tiebreak (gs : GameState) (inputs : List Input) (rng : List Point)
    (l1 l2 l3 : List MovementRecord) (r1 r2 : MovementRecord)
    (hwf : WellFormed gs)
    (hdecomp : tickRecords gs inputs = l1 ++ r1 :: (l2 ++ r2 :: l3))
    (hsame : r1.new_head = r2.new_head)
    (hfirst : ∀ r ∈ l1, r.new_head ≠ r1.new_head)
    (hcell : gs.grid.get_cell r1.new_head ≠ Cell.Snake) :
    ((gs.tick inputs rng).1.snakes.getD r1.snake_id default).is_alive = true ∧
    ((gs.tick inputs rng).1.snakes.getD r1.snake_id default).body.headI =
      r1.new_head ∧
    ((gs.tick inputs rng).1.snakes.getD r2.snake_id default).is_alive = false ∧
    ((gs.tick inputs rng).1.snakes.getD r2.snake_id default).body =
      (gs.snakes.getD r2.snake_id default).body := by
  obtain ⟨hvalid, hnd, _⟩ := tickRecords_valid gs inputs hwf
  obtain ⟨hlen1, hf1⟩ := snakes1_facts gs inputs hwf
  obtain ⟨t1, t2, t3, t4, _, _, _⟩ := tick_spec gs inputs rng hwf
  have hr1mem : r1 ∈ tickRecords gs inputs := by
    rw [hdecomp]
    exact List.mem_append_right l1 (List.mem_cons_self _ _)
  have hr2mem : r2 ∈ tickRecords gs inputs := by
    rw [hdecomp]
    refine List.mem_append_right l1 (List.mem_cons_of_mem _ ?_)
    exact List.mem_append_right l2 (List.mem_cons_self _ _)
  -- decompose the commit list around r1
  obtain ⟨ch2, hch2, hCLeq⟩ := commitsAux_first_commit gs.grid r1.new_head r1 rfl hcell
    l1 [] (List.not_mem_nil _) hfirst (l2 ++ r2 :: l3)
  have hCL : tickCommits gs inputs =
      commitsAux gs.grid l1 [] ++ r1 :: commitsAux gs.grid (l2 ++ r2 :: l3) ch2 := by
    unfold tickCommits
    rw [hdecomp]
    exact hCLeq
  have hr1CL : r1 ∈ tickCommits gs inputs := by
    rw [hCL]
    exact List.mem_append_right _ (List.mem_cons_self _ _)
  -- r1 and r2 are different records
  have hrsnodup : (tickRecords gs inputs).Nodup := hnd.of_map
  have hr1ne2 : r1 ≠ r2 := by
    intro h
    rw [hdecomp] at hrsnodup
    have h2 := (List.nodup_append.mp hrsnodup).2.1
    rw [List.nodup_cons] at h2
    exact h2.1 (h ▸ List.mem_append_right l2 (List.mem_cons_self _ _))
  have hr2CL : r2 ∉ tickCommits gs inputs := by
    rw [hCL]
    intro hmem
    rcases List.mem_append.mp hmem with h | h
    · exact hfirst r2 ((commitsAux_sublist gs.grid l1 []).mem h) hsame.symm
    · rcases List.mem_cons.mp h with h | h
      · exact hr1ne2 h.symm
      · exact (mem_commitsAux_prop gs.grid _ ch2 r2 h).2 (hsame ▸ hch2)
  have hv1 := hvalid r1 hr1mem
  have hv2 := hvalid r2 hr2mem
  have halive1 := hv1.2.1
  have hupd := t2 r1 hr1CL
  have hdead := t3 r2 hr2mem hr2CL
  have hfieldsU := update_body_fields
    ((applyInputs gs.snakes inputs).getD r1.snake_id default)
    (decide (gs.grid.get_cell r1.new_head = Cell.Apple))
  have hfieldsD := mark_dead_fields ((applyInputs gs.snakes inputs).getD r2.snake_id default)
  have hbody1ne : ((applyInputs gs.snakes inputs).getD r1.snake_id default).body ≠ [] := by
    rw [(hf1 r1.snake_id hv1.1).2.1]
    refine (hwf.2.1 _ (getD_mem hv1.1) ?_).1
    rw [← (hf1 r1.snake_id hv1.1).2.2]
    exact halive1
  refine ⟨?_, ?_, ?_, ?_⟩
  · rw [hupd]
    exact hfieldsU.2.2.1.trans halive1
  · rw [hupd, hfieldsU.2.2.2, ← hv1.2.2]
    by_cases hap : decide (gs.grid.get_cell r1.new_head = Cell.Apple) = true
    · rw [if_pos hap, List.headI_cons]
    · rw [if_neg hap, List.dropLast_cons_of_ne_nil hbody1ne, List.headI_cons]
  · rw [hdead]
    exact hfieldsD.2.2.2
  · rw [hdead, hfieldsD.2.2.1]
    exact (hf1 r2.snake_id hv2.1).2.1

/-- Counterexample for C4 as stated: snakes 0 and 1 head-on into (501,500),
which already holds snake 2's body; the earlier-processed snake 0 does not
commit or survive — both are marked dead. -/
theorem c4_counterexample :
    WellFormed stHeadOnBlocked ∧
    (stHeadOnBlocked.snakes.getD 0 default).is_alive = true ∧
    (stHeadOnBlocked.snakes.getD 1 default).is_alive = true ∧
    (stHeadOnBlocked.snakes.getD 0 default).calculate_new_head =
      (stHeadOnBlocked.snakes.getD 1 default).calculate_new_head ∧
    ((stHeadOnBlocked.tick [] []).1.snakes.getD 0 default).is_alive = false ∧
    ((stHeadOnBlocked.tick [] []).1.snakes.getD 1 default).is_alive = false := by
  exact ⟨by decide, by decide, by decide, by decide, by decide, by decide⟩

/-- Witness for C4: the literal head-on scenario; the records of the tick
decompose with snake 0's record first, the shared target (501,500) is not a
Snake cell, snake 0 survives with its head there, snake 1 dies in place. -/
theorem c4_witness :
    WellFormed stHeadOn ∧
    tickRecords stHeadOn [] =
      [] ++ (⟨0, ⟨501, 500⟩, Cell.Empty⟩ : MovementRecord) ::
        ([] ++ (⟨1, ⟨501, 500⟩, Cell.Empty⟩ : MovementRecord) :: []) ∧
    ((stHeadOn.tick [] []).1.snakes.getD 0 default).is_alive = true ∧
    ((stHeadOn.tick [] []).1.snakes.getD 0 default).body.headI = ⟨501, 500⟩ ∧
    ((stHeadOn.tick [] []).1.snakes.getD 1 default).is_alive = false ∧
    ((stHeadOn.tick [] []).1.snakes.getD 1 default).body =
      (stHeadOn.snakes.getD 1 default).body := by
  have h := c4_head_on_tiebreak stHeadOn [] [] [] [] []
    ⟨0, ⟨501, 500⟩, Cell.Empty⟩ ⟨1, ⟨501, 500⟩, Cell.Empty⟩
    (by decide) (by decide) (by decide)
    (fun r hr => absurd hr (List.not_mem_nil r)) (by decide)
  exact ⟨by decide, by decide, h.1, h.2.1, h.2.2.1, h.2.2.2⟩

/-! Per-snake case analysis of one tick -/

theorem tick_snake_cases (gs : GameState) (inputs : List Input) (rng : List Point)
    (hwf : WellFormed gs) (j : Nat) (hj : j < gs.snakes.length) :
    (((applyInputs gs.snakes inputs).getD j default).is_alive = false ∧
      (gs.tick inputs rng).1.snakes.getD j default =
        (applyInputs gs.snakes inputs).getD j default) ∨
    (∃ r ∈ tickCommits gs inputs, r.snake_id = j ∧
      r.new_head = ((applyInputs gs.snakes inputs).getD j default).calculate_new_head ∧
      ((applyInputs gs.snakes inputs).getD j default).is_alive = true ∧
      (gs.tick inputs rng).1.snakes.getD j default =
        ((applyInputs gs.snakes inputs).getD j default).update_body
          (decide (gs.grid.get_cell r.new_head = Cell.Apple))) ∨
    (∃ r ∈ tickRecords gs inputs, r ∉ tickCommits gs inputs ∧ r.snake_id = j ∧
      ((applyInputs gs.snakes inputs).getD j default).is_alive = true ∧
      (gs.tick inputs rng).1.snakes.getD j default =
        ((applyInputs gs.snakes inputs).getD j default).mark_dead) := by
  obtain ⟨hvalid, hnd, hcover⟩ := tickRecords_valid gs inputs hwf
  obtain ⟨t1, t2, t3, t4, _, _, _⟩ := tick_spec gs inputs rng hwf
  by_cases halive : ((applyInputs gs.snakes inputs).getD j default).is_alive = true
  · obtain ⟨r, hr, hrj⟩ := List.mem_map.mp (hcover j hj halive)
    by_cases hrc : r ∈ tickCommits gs inputs
    · refine Or.inr (Or.inl ⟨r, hrc, hrj, ?_, halive, ?_⟩)
      · rw [(hvalid r hr).2.2, hrj]
      · rw [← hrj]
        exact t2 r hrc
    · refine Or.inr (Or.inr ⟨r, hr, hrc, hrj, halive, ?_⟩)
      rw [← hrj]
      exact t3 r hr hrc
  · refine Or.inl ⟨by simpa using halive, t4 j ?_⟩
    intro hmem
    obtain ⟨r, hr, hrj⟩ := List.mem_map.mp hmem
    have := (hvalid r hr).2.1
    rw [hrj] at this
    exact halive this

/-! Tails, getLast, and disjointness helpers -/

theorem tail_position_eq_getLastQ (s : Snake) (t : Point) (h : s.tail_position = some t) :
    s.body.getLast? = some t := by
  unfold Snake.tail_position at h
  split_ifs at h with hlen
  have hne : s.body ≠ [] := by
    intro he
    rw [he] at hlen
    simp at hlen
  rw [List.getLast?_eq_getLast_of_ne_nil hne, List.getLast_eq_get]
  have h2 : s.body.get? (s.body.length - 1) = some (s.body.get ⟨s.body.length - 1, by
    have : s.body.length ≠ 0 := fun he => hne (List.length_eq_zero.mp he)
    omega⟩) := List.get?_eq_get _
  rw [h2] at h
  exact h

theorem getLastQ_not_mem_dropLast (l : List Point) (hnd : l.Nodup) (t : Point)
    (h : l.getLast? = some t) : t ∉ l.dropLast := by
  intro hmem
  have hne : l ≠ [] := by
    intro he
    rw [he] at h
    exact Option.noConfusion h
  rw [List.getLast?_eq_getLast_of_ne_nil hne] at h
  have hsplit := List.dropLast_append_getLast hne
  rw [← hsplit] at hnd
  have hdisj := List.disjoint_of_nodup_append hnd
  exact hdisj hmem (Option.some.inj h ▸ List.mem_singleton_self _)

theorem wf_disjoint (gs : GameState) (hwf : WellFormed gs) :
    ∀ i j, i < gs.snakes.length → j < gs.snakes.length → i ≠ j →
    (gs.snakes.getD i default).is_alive = true →
    (gs.snakes.getD j default).is_alive = true →
    ∀ p ∈ (gs.snakes.getD i default).body, p ∉ (gs.snakes.getD j default).body := by
  intro i j hi hj hne hai haj p hp
  have hpw := List.pairwise_iff_getElem.mp hwf.2.2.1
  have hgi : gs.snakes.getD i default = gs.snakes[i] := List.getD_eq_getElem _ _ hi
  have hgj : gs.snakes.getD j default = gs.snakes[j] := List.getD_eq_getElem _ _ hj
  rcases Nat.lt_or_ge i j with hlt | hge
  · have := hpw i j hi hj hlt
    rw [← hgi, ← hgj] at this
    exact this hai haj p hp
  · have hlt : j < i := by omega
    have := hpw j i hj hi hlt
    rw [← hgi, ← hgj] at this
    intro hpj
    exact this haj hai p hpj hp

-- Every recorded tail belongs to an alive snake: its owner's index, the
-- owning committed record, and the fact that it is the popped last segment.
theorem tickTails_owner (gs : GameState) (inputs : List Input) (hwf : WellFormed gs)
    (p : Point) (hp : p ∈ tickTails gs inputs) :
    ∃ i, i < gs.snakes.length ∧
      ((applyInputs gs.snakes inputs).getD i default).is_alive = true ∧
      p ∈ (gs.snakes.getD i default).body ∧
      ∃ r ∈ tickCommits gs inputs, r.snake_id = i ∧
        gs.grid.get_cell r.new_head ≠ Cell.Apple ∧
        ((applyInputs gs.snakes inputs).getD i default).tail_position = some p := by
  obtain ⟨hvalid, hnd, hcover⟩ := tickRecords_valid gs inputs hwf
  obtain ⟨hlen1, hf1⟩ := snakes1_facts gs inputs hwf
  obtain ⟨_, r, hr, hap, hrt⟩ := tickTails_snake gs inputs hwf p hp
  have hrrec : r ∈ tickRecords gs inputs :=
    (commitsAux_sublist gs.grid (tickRecords gs inputs) []).mem hr
  have hj := (hvalid r hrrec).1
  have hmem := tail_position_mem _ p hrt
  rw [(hf1 r.snake_id hj).2.1] at hmem
  exact ⟨r.snake_id, hj, (hvalid r hrrec).2.1, hmem, r, hr, rfl, hap, hrt⟩

-- Membership in a moved snake's body: the new head or a retained old cell.
theorem mem_update_body (s : Snake) (wg : Bool) (q : Point)
    (hq : q ∈ (s.update_body wg).body) :
    q = s.calculate_new_head ∨ q ∈ s.body := by
  have hfields := update_body_fields s wg
  rw [hfields.2.2.2] at hq
  cases wg with
  | true =>
    rw [if_pos rfl] at hq
    rcases List.mem_cons.mp hq with h | h
    · exact Or.inl h
    · exact Or.inr h
  | false =>
    rw [if_neg (by simp)] at hq
    have := (List.dropLast_sublist _).subset hq
    rcases List.mem_cons.mp this with h | h
    · exact Or.inl h
    · exact Or.inr h

-- ids are distinct across records, so records are determined by snake_id.
theorem record_id_injective (gs : GameState) (inputs : List Input)
    (hwf : WellFormed gs) :
    ∀ r1 ∈ tickRecords gs inputs, ∀ r2 ∈ tickRecords gs inputs,
    r1.snake_id = r2.snake_id → r1 = r2 := by
  obtain ⟨_, hnd, _⟩ := tickRecords_valid gs inputs hwf
  intro r1 h1 r2 h2 he
  exact List.inj_on_of_nodup_map hnd h1 h2 he

/-! Grid facts feeding well-formedness preservation -/

theorem dropLast_cons_of_ne_nil {α : Type} (a : α) (l : List α) (h : l ≠ []) :
    (a :: l).dropLast = a :: l.dropLast := by
  cases l with
  | nil => exact absurd rfl h
  | cons b bs => rfl

theorem tick_grid_snake (gs : GameState) (inputs : List Input) (rng : List Point)
    (hwf : WellFormed gs) (p : Point) (h6 : tickGrid6 gs inputs p = Cell.Snake) :
    (gs.tick inputs rng).1.grid p = Cell.Snake := by
  obtain ⟨_, _, _, _, hg, _, _⟩ := tick_spec gs inputs rng hwf
  rw [hg]
  rcases spawnApples_preserves (tickConsumed gs inputs) (tickGrid6 gs inputs)
      gs.num_apples rng p with h | ⟨h1, h2⟩
  · rw [h, h6]
  · rw [h6] at h1
    exact absurd h1 (by simp)

theorem tickGrid6_head (gs : GameState) (inputs : List Input) (hwf : WellFormed gs)
    (r : MovementRecord) (hr : r ∈ tickCommits gs inputs) :
    tickGrid6 gs inputs r.new_head = Cell.Snake := by
  unfold tickGrid6
  rw [if_neg (tickTails_not_head gs inputs hwf r hr)]
  unfold overlay
  rw [if_pos (List.mem_map_of_mem _ hr)]

theorem tickGrid6_body_cell (gs : GameState) (inputs : List Input) (hwf : WellFormed gs)
    (j : Nat) (hj : j < gs.snakes.length) (p : Point)
    (hp : p ∈ (gs.snakes.getD j default).body)
    (halive : (gs.snakes.getD j default).is_alive = true)
    (hnotail : ∀ r ∈ tickCommits gs inputs, r.snake_id = j →
      gs.grid.get_cell r.new_head ≠ Cell.Apple →
      ((applyInputs gs.snakes inputs).getD j default).tail_position ≠ some p) :
    tickGrid6 gs inputs p = Cell.Snake := by
  obtain ⟨hlen1, hf1⟩ := snakes1_facts gs inputs hwf
  have hsnake : gs.grid p = Cell.Snake :=
    ((hwf.2.1 _ (getD_mem hj) halive).2.2 p hp).2.2
  have hnot : p ∉ tickTails gs inputs := by
    intro hmem
    obtain ⟨i, hi, hai, hpi, r, hrc, hrid, hnap, hrt⟩ :=
      tickTails_owner gs inputs hwf p hmem
    by_cases hij : i = j
    · subst hij
      exact hnotail r hrc hrid hnap hrt
    · have hgai : (gs.snakes.getD i default).is_alive = true := by
        rw [← (hf1 i hi).2.2]
        exact hai
      exact wf_disjoint gs hwf j i hj hi (fun he => hij he.symm) halive hgai p hp hpi
  unfold tickGrid6
  rw [if_neg hnot]
  unfold overlay
  split_ifs with h
  · rfl
  · exact hsnake

/-! Well-formedness is preserved by one tick -/

theorem tick_preserves_wf (gs : GameState) (inputs : List Input) (rng : List Point)
    (hwf : WellFormed gs) : WellFormed (gs.tick inputs rng).1 := by
  obtain ⟨hlen1, hf1⟩ := snakes1_facts gs inputs hwf
  obtain ⟨hvalid, hndrec, hcover⟩ := tickRecords_valid gs inputs hwf
  obtain ⟨t1, t2, t3, t4, t5, t6, t7⟩ := tick_spec gs inputs rng hwf
  have hCLrec : ∀ r ∈ tickCommits gs inputs, r ∈ tickRecords gs inputs :=
    fun r hr => (commitsAux_sublist gs.grid (tickRecords gs inputs) []).mem hr
  -- Facts about the snake stored at an alive post-tick index.
  have key : ∀ j, j < gs.snakes.length →
      ((gs.tick inputs rng).1.snakes.getD j default).is_alive = true →
      ∃ r ∈ tickCommits gs inputs, r.snake_id = j ∧
        (gs.snakes.getD j default).is_alive = true ∧
        r.new_head = ((applyInputs gs.snakes inputs).getD j default).calculate_new_head ∧
        ((gs.tick inputs rng).1.snakes.getD j default).body =
          (if decide (gs.grid.get_cell r.new_head = Cell.Apple) then
            r.new_head :: (gs.snakes.getD j default).body
           else (r.new_head :: (gs.snakes.getD j default).body).dropLast) := by
    intro j hj hpa
    rcases tick_snake_cases gs inputs rng hwf j hj with
      ⟨ha, he⟩ | ⟨r, hrc, hrid, hnh, ha, he⟩ | ⟨r, hrr, hrc2, hrid, ha, he⟩
    · rw [he, ha] at hpa
      exact absurd hpa (by simp)
    · refine ⟨r, hrc, hrid, ?_, hnh, ?_⟩
      · rw [← (hf1 j hj).2.2]
        exact ha
      · rw [he, (update_body_fields _ _).2.2.2, (hf1 j hj).2.1, ← hnh]
    · rw [he, (mark_dead_fields _).2.2.2] at hpa
      exact absurd hpa (by simp)
  -- A committed head never lies on a pre-tick alive body.
  have hhead_not_body : ∀ r ∈ tickCommits gs inputs, ∀ i, i < gs.snakes.length →
      (gs.snakes.getD i default).is_alive = true →
      r.new_head ∉ (gs.snakes.getD i default).body := by
    intro r hr i hi hai hmem
    exact tickCommits_head_not_snake gs inputs r hr
      (((hwf.2.1 _ (getD_mem hi) hai).2.2 _ hmem).2.2)
  refine ⟨?_, ?_, ?_, ?_⟩
  · -- ids stay equal to indices
    intro i hi
    have hi' : i < gs.snakes.length := by rwa [t1] at hi
    rcases tick_snake_cases gs inputs rng hwf i hi' with
      ⟨_, he⟩ | ⟨r, _, _, _, _, he⟩ | ⟨r, _, _, _, _, he⟩
    · rw [he]
      exact (hf1 i hi').1
    · rw [he, (update_body_fields _ _).1]
      exact (hf1 i hi').1
    · rw [he, (mark_dead_fields _).1]
      exact (hf1 i hi').1
  · -- every alive post-tick snake is well-formed on the post-tick grid
    intro s hs hsa
    obtain ⟨j, hj, hje⟩ := mem_getD_index hs
    have hj' : j < gs.snakes.length := by rwa [t1] at hj
    rw [← hje] at hsa ⊢
    obtain ⟨r, hrc, hrid, hga, hnh, hbody⟩ := key j hj' hsa
    have horig := hwf.2.1 _ (getD_mem hj') hga
    have hbne : (gs.snakes.getD j default).body ≠ [] := horig.1
    have hnd : (gs.snakes.getD j default).body.Nodup := horig.2.1
    have hnhb : r.new_head ∉ (gs.snakes.getD j default).body :=
      hhead_not_body r hrc j hj' hga
    have hdrop : (r.new_head :: (gs.snakes.getD j default).body).dropLast =
        r.new_head :: (gs.snakes.getD j default).body.dropLast :=
      dropLast_cons_of_ne_nil _ _ hbne
    -- membership in the new body
    have hmem_new : ∀ p, p ∈ ((gs.tick inputs rng).1.snakes.getD j default).body →
        p = r.new_head ∨ p ∈ (gs.snakes.getD j default).body := by
      intro p hp
      rw [hbody] at hp
      split_ifs at hp with hap
      · rcases List.mem_cons.mp hp with h | h
        · exact Or.inl h
        · exact Or.inr h
      · rw [hdrop] at hp
        rcases List.mem_cons.mp hp with h | h
        · exact Or.inl h
        · exact Or.inr ((List.dropLast_sublist _).subset h)
    refine ⟨?_, ?_, ?_⟩
    · -- nonempty
      rw [hbody]
      split_ifs with hap
      · simp
      · rw [hdrop]
        simp
    · -- no duplicates
      rw [hbody]
      split_ifs with hap
      · exact List.nodup_cons.mpr ⟨hnhb, hnd⟩
      · rw [hdrop]
        refine List.nodup_cons.mpr ⟨?_, hnd.sublist (List.dropLast_sublist _)⟩
        intro hc
        exact hnhb ((List.dropLast_sublist _).subset hc)
    · -- bounds and grid coherence
      intro p hp
      have hhx : (gs.snakes.getD j default).body.headI.x < GRID_WIDTH ∧
          (gs.snakes.getD j default).body.headI.y < GRID_HEIGHT := by
        have := (horig.2.2 _ (headI_mem hbne))
        exact ⟨this.1, this.2.1⟩
      have hnhbounds : r.new_head.x < GRID_WIDTH ∧ r.new_head.y < GRID_HEIGHT := by
        rw [hnh]
        have hx := hhx.1
        have hy := hhx.2
        rw [← (hf1 j hj').2.1] at hx hy
        exact calc_new_head_bounds _ hx hy
      rcases hmem_new p hp with hpe | hpb
      · subst hpe
        refine ⟨hnhbounds.1, hnhbounds.2, ?_⟩
        exact tick_grid_snake gs inputs rng hwf _ (tickGrid6_head gs inputs hwf r hrc)
      · have hbounds := horig.2.2 p hpb
        refine ⟨hbounds.1, hbounds.2.1, ?_⟩
        refine tick_grid_snake gs inputs rng hwf p
          (tickGrid6_body_cell gs inputs hwf j hj' p hpb hga ?_)
        intro r' hr' hrid' hnap' hrt'
        -- the record at index j is r itself
        have hre : r' = r := record_id_injective gs inputs hwf r' (hCLrec r' hr')
          r (hCLrec r hrc) (by rw [hrid', hrid])
        subst hre
        -- so this tick did not eat, and p would be the popped tail
        have hgl := tail_position_eq_getLastQ _ p hrt'
        rw [(hf1 j hj').2.1] at hgl
        have hpl : p ∈ (gs.snakes.getD j default).body.dropLast := by
          have hp' := hp
          rw [hbody] at hp'
          rw [if_neg (by simpa using hnap')] at hp'
          rw [hdrop] at hp'
          rcases List.mem_cons.mp hp' with h | h
          · exact absurd (h ▸ hpb) hnhb
          · exact h
        exact getLastQ_not_mem_dropLast _ hnd p hgl hpl
  · -- alive bodies stay pairwise disjoint
    rw [List.pairwise_iff_getElem]
    intro i j hi hj hij
    have hi' : i < gs.snakes.length := by rwa [t1] at hi
    have hj' : j < gs.snakes.length := by rwa [t1] at hj
    have hgi : (gs.tick inputs rng).1.snakes[i] =
        (gs.tick inputs rng).1.snakes.getD i default :=
      (List.getD_eq_getElem _ _ hi).symm
    have hgj : (gs.tick inputs rng).1.snakes[j] =
        (gs.tick inputs rng).1.snakes.getD j default :=
      (List.getD_eq_getElem _ _ hj).symm
    rw [hgi, hgj]
    intro hai haj p hpi hpj
    obtain ⟨ri, hric, hriid, hgai, hrinh, hbodyi⟩ := key i hi' hai
    obtain ⟨rj, hrjc, hrjid, hgaj, hrjnh, hbodyj⟩ := key j hj' haj
    have hmi : p = ri.new_head ∨ p ∈ (gs.snakes.getD i default).body := by
      rw [hbodyi] at hpi
      split_ifs at hpi with hap
      · rcases List.mem_cons.mp hpi with h | h
        · exact Or.inl h
        · exact Or.inr h
      · rcases List.mem_cons.mp ((List.dropLast_sublist _).subset hpi) with h | h
        · exact Or.inl h
        · exact Or.inr h
    have hmj : p = rj.new_head ∨ p ∈ (gs.snakes.getD j default).body := by
      rw [hbodyj] at hpj
      split_ifs at hpj with hap
      · rcases List.mem_cons.mp hpj with h | h
        · exact Or.inl h
        · exact Or.inr h
      · rcases List.mem_cons.mp ((List.dropLast_sublist _).subset hpj) with h | h
        · exact Or.inl h
        · exact Or.inr h
    rcases hmi with hie | hib <;> rcases hmj with hje2 | hjb
    · -- two equal committed heads force equal records, hence equal indices
      have hre : ri = rj := List.inj_on_of_nodup_map
        (commitsAux_heads_nodup gs.grid (tickRecords gs inputs) []) hric hrjc
        (by rw [← hie, ← hje2])
      rw [← hriid, ← hrjid, hre] at hij
      exact absurd hij (by omega)
    · exact hhead_not_body ri hric j hj' hgaj (hie ▸ hjb)
    · exact hhead_not_body rj hrjc i hi' hgai (hje2 ▸ hib)
    · exact wf_disjoint gs hwf i j hi' hj' (by omega) hgai hgaj p hib hjb
  · -- the apple budget is respected
    rw [t6]
    exact spawnApples_num_le _ _ _ _ hwf.2.2.2

/-! Standalone characterisation of an alive post-tick snake -/

theorem tick_alive_commit (gs : GameState) (inputs : List Input) (rng : List Point)
    (hwf : WellFormed gs) (j : Nat) (hj : j < gs.snakes.length)
    (hpa : ((gs.tick inputs rng).1.snakes.getD j default).is_alive = true) :
    ∃ r ∈ tickCommits gs inputs, r.snake_id = j ∧
      (gs.snakes.getD j default).is_alive = true ∧
      (∀ p ∈ ((gs.tick inputs rng).1.snakes.getD j default).body,
        p = r.new_head ∨ p ∈ (gs.snakes.getD j default).body) := by
  obtain ⟨hlen1, hf1⟩ := snakes1_facts gs inputs hwf
  rcases tick_snake_cases gs inputs rng hwf j hj with
    ⟨ha, he⟩ | ⟨r, hrc, hrid, hnh, ha, he⟩ | ⟨r, hrr, hrc2, hrid, ha, he⟩
  · rw [he, ha] at hpa
    exact absurd hpa (by simp)
  · refine ⟨r, hrc, hrid, by rw [← (hf1 j hj).2.2]; exact ha, ?_⟩
    intro p hp
    rw [he] at hp
    rcases mem_update_body _ _ p hp with h | h
    · rw [← hnh] at h
      exact Or.inl h
    · rw [(hf1 j hj).2.1] at h
      exact Or.inr h
  · rw [he, (mark_dead_fields _).2.2.2] at hpa
    exact absurd hpa (by simp)

/-! A dead snake's corpse: the frame facts preserved tick after tick -/

theorem tick_establishes_deadframe (gs : GameState) (inputs : List Input)
    (rng : List Point) (hwf : WellFormed gs) (j : Nat) (hj : j < gs.snakes.length)
    (halive : (gs.snakes.getD j default).is_alive = true)
    (hdead : ((gs.tick inputs rng).1.snakes.getD j default).is_alive = false) :
    DeadFrame (gs.tick inputs rng).1 j ∧
    ((gs.tick inputs rng).1.snakes.getD j default).body =
      (gs.snakes.getD j default).body := by
  obtain ⟨hlen1, hf1⟩ := snakes1_facts gs inputs hwf
  obtain ⟨t1, _, _, _, _, _, _⟩ := tick_spec gs inputs rng hwf
  have hCLrec : ∀ r ∈ tickCommits gs inputs, r ∈ tickRecords gs inputs :=
    fun r hr => (commitsAux_sublist gs.grid (tickRecords gs inputs) []).mem hr
  have horig := hwf.2.1 _ (getD_mem hj) halive
  rcases tick_snake_cases gs inputs rng hwf j hj with
    ⟨ha, he⟩ | ⟨r, hrc, hrid, hnh, ha, he⟩ | ⟨r, hrr, hrc2, hrid, ha, he⟩
  · rw [(hf1 j hj).2.2, halive] at ha
    exact absurd ha (by simp)
  · rw [he, (update_body_fields _ _).2.2.1, ha] at hdead
    exact absurd hdead (by simp)
  · have hbodyeq : ((gs.tick inputs rng).1.snakes.getD j default).body =
        (gs.snakes.getD j default).body := by
      rw [he, (mark_dead_fields _).2.2.1, (hf1 j hj).2.1]
    refine ⟨⟨by rwa [t1], hdead, ?_, ?_⟩, hbodyeq⟩
    · -- the whole body stays on the grid as Snake cells
      intro p hp
      rw [hbodyeq] at hp
      refine tick_grid_snake gs inputs rng hwf p
        (tickGrid6_body_cell gs inputs hwf j hj p hp halive ?_)
      intro r' hr' hrid' _ _
      -- j's record was rejected, so no committed record carries id j
      exact hrc2 ((record_id_injective gs inputs hwf r' (hCLrec r' hr') r hrr
        (by rw [hrid', hrid])) ▸ hr')
    · -- the corpse stays disjoint from every alive body
      intro i hi hij hai p hp hpi
      have hi' : i < gs.snakes.length := by rwa [t1] at hi
      obtain ⟨ri, hric, _, hgai, hmem⟩ := tick_alive_commit gs inputs rng hwf i hi' hai
      rw [hbodyeq] at hp
      rcases hmem p hpi with hpe | hpb
      · exact tickCommits_head_not_snake gs inputs ri hric
          (hpe ▸ ((horig.2.2 p hp).2.2))
      · exact wf_disjoint gs hwf j i hj hi' (fun h => hij h.symm) halive hgai p hp hpb

theorem tick_preserves_deadframe (gs : GameState) (inputs : List Input)
    (rng : List Point) (hwf : WellFormed gs) (j : Nat) (hdf : DeadFrame gs j) :
    DeadFrame (gs.tick inputs rng).1 j ∧
    ((gs.tick inputs rng).1.snakes.getD j default).body =
      (gs.snakes.getD j default).body := by
  obtain ⟨hj, hdead, hcells, hdisj⟩ := hdf
  obtain ⟨hlen1, hf1⟩ := snakes1_facts gs inputs hwf
  obtain ⟨t1, _, _, _, _, _, _⟩ := tick_spec gs inputs rng hwf
  have hsn1 : ((applyInputs gs.snakes inputs).getD j default).is_alive = false := by
    rw [(hf1 j hj).2.2]
    exact hdead
  rcases tick_snake_cases gs inputs rng hwf j hj with
    ⟨ha, he⟩ | ⟨r, hrc, hrid, hnh, ha, he⟩ | ⟨r, hrr, hrc2, hrid, ha, he⟩
  · have hbodyeq : ((gs.tick inputs rng).1.snakes.getD j default).body =
        (gs.snakes.getD j default).body := by
      rw [he, (hf1 j hj).2.1]
    have halivee : ((gs.tick inputs rng).1.snakes.getD j default).is_alive = false := by
      rw [he]
      exact hsn1
    refine ⟨⟨by rwa [t1], halivee, ?_, ?_⟩, hbodyeq⟩
    · -- corpse cells stay Snake: no tail clear can hit them
      intro p hp
      rw [hbodyeq] at hp
      have hnotail : p ∉ tickTails gs inputs := by
        intro hmem
        obtain ⟨i, hi, hai, hpi, _, _, _, _, _⟩ :=
          tickTails_owner gs inputs hwf p hmem
        have hij : i ≠ j := by
          intro hc
          rw [hc, hsn1] at hai
          exact absurd hai (by simp)
        have hgai : (gs.snakes.getD i default).is_alive = true := by
          rw [← (hf1 i hi).2.2]
          exact hai
        exact hdisj i hi hij hgai p hp hpi
      refine tick_grid_snake gs inputs rng hwf p ?_
      unfold tickGrid6
      rw [if_neg hnotail]
      unfold overlay
      split_ifs with h
      · rfl
      · exact hcells p hp
    · -- disjointness from alive bodies is preserved
      intro i hi hij hai p hp hpi
      have hi' : i < gs.snakes.length := by rwa [t1] at hi
      obtain ⟨ri, hric, _, hgai, hmem⟩ := tick_alive_commit gs inputs rng hwf i hi' hai
      rw [hbodyeq] at hp
      rcases hmem p hpi with hpe | hpb
      · exact tickCommits_head_not_snake gs inputs ri hric (hpe ▸ hcells p hp)
      · exact hdisj i hi' hij hgai p hp hpb
  · rw [ha] at hsn1
    exact absurd hsn1 (by simp)
  · rw [ha] at hsn1
    exact absurd hsn1 (by simp)

/-! Iterated ticks preserve well-formedness and corpse frames -/

theorem runTicks_preserves_wf :
    ∀ (batches : List (List Input)) (gs : GameState) (rng : List Point),
    WellFormed gs → WellFormed (runTicks gs batches rng).1
  | [], _, _, h => h
  | b :: bs, gs, rng, h => by
      have hstep : runTicks gs (b :: bs) rng =
          runTicks (gs.tick b rng).1 bs (gs.tick b rng).2 := rfl
      rw [hstep]
      exact runTicks_preserves_wf bs _ _ (tick_preserves_wf gs b rng h)

theorem runTicks_preserves_deadframe :
    ∀ (batches : List (List Input)) (gs : GameState) (rng : List Point) (j : Nat),
    WellFormed gs → DeadFrame gs j →
    DeadFrame (runTicks gs batches rng).1 j ∧
    ((runTicks gs batches rng).1.snakes.getD j default).body =
      (gs.snakes.getD j default).body
  | [], _, _, _, _, hdf => ⟨hdf, rfl⟩
  | b :: bs, gs, rng, j, hwf, hdf => by
      have hstep : runTicks gs (b :: bs) rng =
          runTicks (gs.tick b rng).1 bs (gs.tick b rng).2 := rfl
      rw [hstep]
      obtain ⟨hdf1, hbody1⟩ := tick_preserves_deadframe gs b rng hwf j hdf
      obtain ⟨hdf2, hbody2⟩ := runTicks_preserves_deadframe bs (gs.tick b rng).1
        (gs.tick b rng).2 j (tick_preserves_wf gs b rng hwf) hdf1
      exact ⟨hdf2, hbody2.trans hbody1⟩

/-- C5: starting from any well-formed state, after any number of ticks every
body point of every alive snake maps to a Snake cell of the grid, and the
bodies of alive snakes are pairwise disjoint. -/
theorem c5_alive_body_grid_invariant (gs : GameState) (batches : List (List Input))
    (rng : List Point) (hwf : WellFormed gs) :
    (∀ s ∈ (runTicks gs batches rng).1.snakes, s.is_alive = true →
      ∀ p ∈ s.body, (runTicks gs batches rng).1.grid.get_cell p = Cell.Snake) ∧
    List.Pairwise SnakesDisjoint (runTicks gs batches rng).1.snakes := by
  have hwf' := runTicks_preserves_wf batches gs rng hwf
  refine ⟨?_, hwf'.2.2.1⟩
  intro s hs hsa p hp
  exact ((hwf'.2.1 s hs hsa).2.2 p hp).2.2

theorem c5_witness :
    WellFormed stMoveEast ∧
    ((∀ s ∈ (runTicks stMoveEast [[], []] []).1.snakes, s.is_alive = true →
      ∀ p ∈ s.body, (runTicks stMoveEast [[], []] []).1.grid.get_cell p = Cell.Snake) ∧
    List.Pairwise SnakesDisjoint (runTicks stMoveEast [[], []] []).1.snakes) :=
  ⟨by decide, c5_alive_body_grid_invariant stMoveEast [[], []] [] (by decide)⟩

/-- C10: when an alive snake of a well-formed state is marked dead by a tick,
its body is unchanged in that tick and every body cell holds Snake on the
post-tick grid; over any sequence of later ticks the snake stays dead, its
body never changes, and every body cell still holds Snake on the grid. -/
theorem c10_dead_bodies_persist (gs : GameState) (inputs : List Input)
    (rng : List Point) (batches : List (List Input)) (j : Nat)
    (hwf : WellFormed gs) (hj : j < gs.snakes.length)
    (halive : (gs.snakes.getD j default).is_alive = true)
    (hdead : ((gs.tick inputs rng).1.snakes.getD j default).is_alive = false) :
    (((gs.tick inputs rng).1.snakes.getD j default).body =
        (gs.snakes.getD j default).body ∧
      ∀ p ∈ (gs.snakes.getD j default).body,
        (gs.tick inputs rng).1.grid.get_cell p = Cell.Snake) ∧
    (((runTicks (gs.tick inputs rng).1 batches (gs.tick inputs rng).2).1.snakes.getD j
        default).is_alive = false ∧
      ((runTicks (gs.tick inputs rng).1 batches (gs.tick inputs rng).2).1.snakes.getD j
        default).body = (gs.snakes.getD j default).body ∧
      ∀ p ∈ (gs.snakes.getD j default).body,
        (runTicks (gs.tick inputs rng).1 batches (gs.tick inputs rng).2).1.grid.get_cell p
          = Cell.Snake) := by
  obtain ⟨hdf1, hbody1⟩ :=
    tick_establishes_deadframe gs inputs rng hwf j hj halive hdead
  obtain ⟨hdf2, hbody2⟩ := runTicks_preserves_deadframe batches (gs.tick inputs rng).1
    (gs.tick inputs rng).2 j (tick_preserves_wf gs inputs rng hwf) hdf1
  refine ⟨⟨hbody1, ?_⟩, hdf2.2.1, hbody2.trans hbody1, ?_⟩
  · intro p hp
    rw [← hbody1] at hp
    exact hdf1.2.2.1 p hp
  · intro p hp
    rw [← hbody1, ← hbody2] at hp
    exact hdf2.2.2.1 p hp

theorem c10_witness :
    (WellFormed stHeadOn ∧ 1 < stHeadOn.snakes.length ∧
      (stHeadOn.snakes.getD 1 default).is_alive = true ∧
      ((stHeadOn.tick [] []).1.snakes.getD 1 default).is_alive = false) ∧
    ((((stHeadOn.tick [] []).1.snakes.getD 1 default).body =
        (stHeadOn.snakes.getD 1 default).body ∧
      ∀ p ∈ (stHeadOn.snakes.getD 1 default).body,
        (stHeadOn.tick [] []).1.grid.get_cell p = Cell.Snake) ∧
    (((runTicks (stHeadOn.tick [] []).1 [[]] (stHeadOn.tick [] []).2).1.snakes.getD 1
        default).is_alive = false ∧
      ((runTicks (stHeadOn.tick [] []).1 [[]] (stHeadOn.tick [] []).2).1.snakes.getD 1
        default).body = (stHeadOn.snakes.getD 1 default).body ∧
      ∀ p ∈ (stHeadOn.snakes.getD 1 default).body,
        (runTicks (stHeadOn.tick [] []).1 [[]] (stHeadOn.tick [] []).2).1.grid.get_cell p
          = Cell.Snake)) :=
  ⟨⟨by decide, by decide, by decide, by decide⟩,
    c10_dead_bodies_persist stHeadOn [] [] [[]] 1 (by decide) (by decide) (by decide)
      (by decide)⟩
